import Mathlib

/-!
# firecracker-task-driver: launch options and instance start-up

A shallow embedding of `driver/firevm.go`:

* `firevm.taskConfig2FirecrackerOpts` - the translation of a task configuration
  into launch options;
* `firevm.initializeContainer` - the start-up sequence of one micro-VM, with
  every call that leaves the package (stat, pty allocation, the hypervisor
  SDK, the file system) answered by an explicit environment;
* `firevm.tickle` - the best-effort write that unblocks a console reader.

Go strings are `String`, `int64`/`int` are `Int` (no operation of the
embedded code can overflow: the only arithmetic is a division by 100), the
pointers of the hypervisor config that the code dereferences are `Option`,
and a Go run-time fault is the explicit outcome `Outcome.panicked`.
-/

set_option autoImplicit false

/-! ## Library functions used by the driver -/

/-- Go `len` of a string: its length in bytes. -/
def len (s : String) : Nat := s.utf8ByteSize

namespace filepath

/-- The elements of a path: the pieces between separators, in order. -/
def splitElems : List Char → List (List Char)
  | [] => [[]]
  | c :: cs =>
    match splitElems cs with
    | [] => [[]]
    | e :: es => if c = '/' then [] :: e :: es else (c :: e) :: es

/-- The output buffer of `Clean`: the number of leading `..` elements that
can not be removed (unrooted paths only) and the real elements written after
them, last written first. -/
structure CleanState where
  dotdot : Nat
  elems : List (List Char)
deriving DecidableEq, Repr

/-- One iteration of the loop of `Clean`, on one path element: an empty
element and `.` are skipped, `..` removes the last real element when there
is one, is dropped on a rooted path and kept on an unrooted one, and any
other element is appended. -/
def cleanStep (rooted : Bool) (st : CleanState) (e : List Char) : CleanState :=
  if e = [] then st
  else if e = ['.'] then st
  else if e = ['.', '.'] then
    match st.elems with
    | _ :: rest => { st with elems := rest }
    | [] => if rooted then st else { st with dotdot := st.dotdot + 1 }
  else { st with elems := e :: st.elems }

/-- The elements joined by single separators. -/
def joinElems : List (List Char) → List Char
  | [] => []
  | [e] => e
  | e :: es => e ++ '/' :: joinElems es

/-- The buffer as a path. -/
def render (rooted : Bool) (st : CleanState) : List Char :=
  let body := joinElems (List.replicate st.dotdot ['.', '.'] ++ st.elems.reverse)
  if rooted then '/' :: body
  else if body = [] then ['.'] else body

/-- Go `filepath.Clean` on a Unix path, on the characters of the path. -/
def cleanChars (p : List Char) : List Char :=
  match p with
  | [] => ['.']
  | c :: _ =>
    let rooted : Bool := c = '/'
    render rooted ((splitElems p).foldl (cleanStep rooted) ⟨0, []⟩)

/-- Go `filepath.Clean` (Unix): the shortest path equivalent to `path` by
purely lexical processing. -/
def Clean (path : String) : String := ⟨cleanChars path.data⟩

/-- Go `filepath.Join` of two elements (Unix): empty elements are ignored,
the rest is joined by the separator and cleaned; all empty gives the empty
string. -/
def Join (a b : String) : String :=
  if a ≠ "" then Clean (a ++ "/" ++ b)
  else if b ≠ "" then Clean b
  else ""

/-- A single real path element: not empty, no separator, neither `.` nor `..`. -/
def plainName (n : String) : Prop :=
  n ≠ "" ∧ '/' ∉ n.data ∧ n ≠ "." ∧ n ≠ ".."

instance : DecidablePred plainName := fun n => by unfold plainName; infer_instance

/-- A clean path other than the root and the current directory. -/
def plainDir (d : String) : Prop :=
  Clean d = d ∧ d ≠ "/" ∧ d ≠ "."

instance : DecidablePred plainDir := fun d => by unfold plainDir; infer_instance

end filepath

/-! ## Types declared outside `firevm.go` -/

namespace drivers

/-- Nomad `structs.AllocatedCpuResources`. -/
structure AllocatedCpuResources where
  CpuShares : Int
deriving DecidableEq, Repr

/-- Nomad `structs.AllocatedMemoryResources`. -/
structure AllocatedMemoryResources where
  MemoryMB : Int
deriving DecidableEq, Repr

/-- Nomad `structs.AllocatedTaskResources`, the fields the driver reads. -/
structure AllocatedTaskResources where
  Cpu : AllocatedCpuResources
  Memory : AllocatedMemoryResources
deriving DecidableEq, Repr

/-- Nomad `drivers.Resources`, the field the driver reads. -/
structure Resources where
  NomadResources : AllocatedTaskResources
deriving DecidableEq, Repr

/-- Nomad `drivers.TaskConfig`, the fields the driver reads. The resource
records are present (the driver dereferences them unconditionally). -/
structure TaskConfig where
  AllocID : String
  Name : String
  AllocDir : String
  Resources : Resources
deriving DecidableEq, Repr

end drivers

namespace firevm

/-- The mask needed to check whether or not the permissions of a file are
executable (Go octal literal `0111`). -/
def executableMask : Nat := 0o111

/-- The fixed suffix of every kernel command line. -/
def defaultbootoptions : String := " console=ttyS0 reboot=k panic=1 pci=off nomodules"

/-- The network interface block of a task configuration. `firevm.go` reads
`Ip` only; the remaining fields travel with the record unread. -/
structure Nic where
  Ip : String
  more : List String
deriving DecidableEq, Repr

/-- The task-level configuration, with the fields `firevm.go` reads. -/
structure TaskConfig where
  KernelImage : String
  BootDisk : String
  Disks : List String
  BootOptions : String
  Nic : Nic
  Network : String
  Log : String
  Cputype : String
  DisableHt : Bool
  Firecracker : String
deriving DecidableEq, Repr

/-- The launch options, with the fields `firevm.go` assigns or reads.
`validMetadata` is `none` for a nil interface value. -/
structure options where
  FcBinary : String
  FcKernelImage : String
  FcKernelCmdLine : String
  FcRootDrivePath : String
  FcAdditionalDrives : List String
  FcNicConfig : Nic
  FcNetworkName : String
  FcFifoLogFile : String
  FcLogLevel : String
  FcCPUTemplate : String
  FcCPUCount : Int
  FcMemSz : Int
  FcDisableHt : Bool
  Debug : Bool
  validMetadata : Option String
deriving DecidableEq, Repr

/-- Modelled from the spec: `newOptions` is declared in a file of the driver
that is not among the sources read here. The spec lists the network interface
config, the network name and the metadata as optional fields of the launch
options, absent until the translator applies them, so the fresh record
carries the Go zero value in every field. -/
def newOptions : options :=
  { FcBinary := "", FcKernelImage := "", FcKernelCmdLine := "", FcRootDrivePath := "",
    FcAdditionalDrives := [], FcNicConfig := ⟨"", []⟩, FcNetworkName := "",
    FcFifoLogFile := "", FcLogLevel := "", FcCPUTemplate := "", FcCPUCount := 0,
    FcMemSz := 0, FcDisableHt := false, Debug := false, validMetadata := none }

/-- The translator `taskConfig2FirecrackerOpts`: the options and the error
value it returns (`none` is Go `nil`). Each assignment of the source is one
record update, in source order. -/
def taskConfig2FirecrackerOpts (taskConfig : TaskConfig) (cfg : drivers.TaskConfig) :
    options × Option String :=
  let opts := newOptions
  let opts :=
    if len taskConfig.KernelImage > 0 then { opts with FcKernelImage := taskConfig.KernelImage }
    else { opts with FcKernelImage := filepath.Join cfg.AllocDir cfg.Name ++ "/vmlinux" }
  let opts :=
    if len taskConfig.BootDisk > 0 then { opts with FcRootDrivePath := taskConfig.BootDisk }
    else { opts with FcRootDrivePath := filepath.Join cfg.AllocDir cfg.Name ++ "/rootfs.ext4" }
  let opts :=
    if taskConfig.Disks.length > 0 then { opts with FcAdditionalDrives := taskConfig.Disks }
    else opts
  let opts :=
    if len taskConfig.BootOptions > 0 then
      { opts with FcKernelCmdLine := taskConfig.BootOptions ++ defaultbootoptions }
    else { opts with FcKernelCmdLine := defaultbootoptions }
  let opts :=
    if len taskConfig.Nic.Ip > 0 then { opts with FcNicConfig := taskConfig.Nic } else opts
  let opts :=
    if len taskConfig.Network > 0 then { opts with FcNetworkName := taskConfig.Network } else opts
  let opts :=
    if len taskConfig.Log > 0 then
      { opts with FcFifoLogFile := taskConfig.Log, Debug := true, FcLogLevel := "Debug" }
    else opts
  let opts :=
    if cfg.Resources.NomadResources.Cpu.CpuShares > 100 then
      { opts with FcCPUCount := Int.tdiv cfg.Resources.NomadResources.Cpu.CpuShares 100 }
    else { opts with FcCPUCount := 1 }
  let opts := { opts with FcCPUTemplate := taskConfig.Cputype }
  let opts := { opts with FcDisableHt := taskConfig.DisableHt }
  let opts :=
    if cfg.Resources.NomadResources.Memory.MemoryMB > 0 then
      { opts with FcMemSz := cfg.Resources.NomadResources.Memory.MemoryMB }
    else { opts with FcMemSz := 300 }
  let opts := { opts with FcBinary := taskConfig.Firecracker }
  (opts, none)

end firevm

/-! ## The world outside the package -/

namespace context

/-- A Go context, as far as cancellation scoping goes: the context of the
caller or a context derived from a parent by `WithCancel`. -/
inductive Context where
  | caller
  | withCancel (parent : Context)
deriving DecidableEq, Repr

/-- A cancel function, identified by the context it cancels. -/
structure CancelFunc where
  cancels : Context
deriving DecidableEq, Repr

/-- Go `context.WithCancel`: the derived context and its cancel function. -/
def WithCancel (parent : Context) : Context × CancelFunc :=
  (Context.withCancel parent, ⟨Context.withCancel parent⟩)

end context

namespace os

/-- An error of package `os`, with the answer of `os.IsNotExist` on it. -/
structure PathError where
  msg : String
  isNotExist : Bool
deriving DecidableEq, Repr

/-- What `initializeContainer` reads of an `os.FileInfo`: `IsDir()` and the
bits of `Mode()`. -/
structure FileInfo where
  IsDir : Bool
  Mode : Nat
deriving DecidableEq, Repr

/-- The flags of `os.OpenFile` used by the driver. -/
inductive Flag where
  | O_RDWR
  | O_WRONLY
  | O_CREATE
  | O_APPEND
  | O_NONBLOCK
deriving DecidableEq, Repr

/-- How a write on an open file ends: everything written, or an error after
the first `n` characters reached the file. -/
inductive WriteResult where
  | done
  | failed (n : Nat) (msg : String)
deriving DecidableEq, Repr

/-- The files by name, with their content; `none` where no file exists. -/
abbrev Files := String → Option String

/-- The files after a successful `OpenFile` with `O_CREATE` and without
`O_TRUNC`: a missing file now exists and is empty, an existing one is
untouched. -/
def Files.create (fs : Files) (name : String) : Files :=
  fun n => if n = name then some ((fs name).getD "") else fs n

/-- The files after `data` reached the end of file `name` (`O_APPEND`). -/
def Files.append (fs : Files) (name : String) (data : String) : Files :=
  fun n => if n = name then some ((fs name).getD "" ++ data) else fs n

/-- The part of `data` that reaches the file under a write result. -/
def WriteResult.written (r : WriteResult) (data : String) : String :=
  match r with
  | .done => data
  | .failed n _ => ⟨data.data.take n⟩

end os

namespace console

/-- The controlling side of a pseudo-terminal pair. -/
structure Console where
  Fd : Nat
  Name : String
deriving DecidableEq, Repr

end console

namespace firecracker

/-- Go `net.IPNet`: address and mask bytes. -/
structure IPNet where
  IP : List Nat
  Mask : List Nat
deriving DecidableEq, Repr

/-- SDK `IPConfiguration`, the field the driver reads. -/
structure IPConfiguration where
  IPAddr : IPNet
deriving DecidableEq, Repr

/-- SDK `StaticNetworkConfiguration`, the field the driver reads (a pointer). -/
structure StaticNetworkConfiguration where
  IPConfiguration : Option IPConfiguration
deriving DecidableEq, Repr

/-- SDK `CNIConfiguration`, the field the driver reads. -/
structure CNIConfiguration where
  IfName : String
deriving DecidableEq, Repr

/-- SDK `NetworkInterface`: both configurations are pointers. -/
structure NetworkInterface where
  StaticConfiguration : Option StaticNetworkConfiguration
  CNIConfiguration : Option CNIConfiguration
deriving DecidableEq, Repr

/-- SDK `Config`, the fields the driver reads. `NetworkInterfaces` holds the
elements of the slice as they stand when `initializeContainer` reads them:
the slice shares its backing array with the machine, which fills in the
static configuration of a CNI interface while it starts. -/
structure Config where
  SocketPath : String
  NetworkInterfaces : List NetworkInterface
deriving DecidableEq, Repr

/-- The process runner built by `VMCommandBuilder`: binary, socket path, the
console wired to the three standard streams, and the context of `Build`. -/
structure Command where
  Bin : String
  SocketPath : String
  Stdin : console.Console
  Stdout : console.Console
  Stderr : console.Console
  Ctx : context.Context
deriving DecidableEq, Repr

/-- A handle on a machine of the SDK. -/
structure Machine where
  handle : Nat
deriving DecidableEq, Repr

end firecracker

namespace firevm

/-- The identity snapshot of an instance. -/
structure Instance_info where
  AllocId : String
  Ip : String
  Serial : String
  Pid : String
  Vnic : String
deriving DecidableEq, Repr

/-- The aggregate returned by a successful start. -/
structure vminfo where
  Machine : firecracker.Machine
  tty : String
  Console : console.Console
  Info : Instance_info
  Cancel : context.CancelFunc
deriving DecidableEq, Repr

/-- The error values `initializeContainer` returns, one constructor per
`return nil, ...` of the source, with the arguments of its format string:
`config` is the error of `getFirecrackerConfig` returned unchanged,
`doesNotExist` is "Binary %q does not exist: %v", `failedToStat` is
"Failed to stat binary, %q: %v", `isDirectory` is "Binary, %q, is a
directory", `notExecutable` is "Binary, %q, is not executable. Check
permissions of binary", `console` is "Could not create serial console  %v+",
`creatingMachine` is "Failed creating machine: %v", `startMachine` is "Failed
to start machine: %v", `gettingPid` is "Failed getting pid for machine: %v",
`creatingInfoFile` is "Failed creating info file=%s err=%v". -/
inductive Error where
  | config (err : String)
  | doesNotExist (binary : String) (err : String)
  | failedToStat (binary : String) (err : String)
  | isDirectory (binary : String)
  | notExecutable (binary : String)
  | console (err : String)
  | creatingMachine (err : String)
  | startMachine (err : String)
  | gettingPid (err : String)
  | creatingInfoFile (logfile : String) (err : String)
deriving DecidableEq, Repr

/-- The run-time faults the code can raise. -/
inductive Fault where
  | indexOutOfRange
  | nilDereference
deriving DecidableEq, Repr

/-- How a call of a Go function ends: it returns, or it panics. -/
inductive Outcome (α : Type) where
  | returned (value : α)
  | panicked (fault : Fault)
deriving DecidableEq, Repr

/-- The calls that leave the package, as `initializeContainer` and `tickle`
issue them. -/
inductive Call where
  | stat (name : String)
  | newPty
  | newMachine (ctx : context.Context) (cmd : firecracker.Command)
  | start (ctx : context.Context)
  | setMetadata (ctx : context.Context) (metadata : String)
  | pid
  | openFile (name : String) (flag : List os.Flag) (perm : Nat)
  | write (name : String) (data : String)
  | close (name : String)
  | cancel (f : context.CancelFunc)
deriving DecidableEq, Repr

/-- The answers of everything `initializeContainer` calls outside
`firevm.go`. `getFirecrackerConfig` is a method of the driver declared in
another file: it yields the configuration or an error, and the value of
`opts.validMetadata` it leaves behind (it assigns no other field that
`initializeContainer` reads afterwards: the launch options are immutable
once derived). `openFile` is the error of `os.OpenFile` on a name, `none`
when it succeeds; `start` and `setMetadata` likewise - the error of
`SetMetadata` is logged and dropped by the source, so the run does not depend
on it. `ipNetString` is `net.IPNet.String` and `marshalIndent` is
`json.MarshalIndent(info, "", " ")`. `files` is the file system before the
call. -/
structure Env where
  getFirecrackerConfig : options → String → Option String × Except String firecracker.Config
  getenv : String → String
  stat : String → Except os.PathError os.FileInfo
  newPty : Except String (console.Console × String)
  newMachine : context.Context → firecracker.Config → firecracker.Command →
    Except String firecracker.Machine
  start : firecracker.Machine → context.Context → Option String
  setMetadata : firecracker.Machine → context.Context → String → Option String
  pid : firecracker.Machine → Except String Int
  ipNetString : firecracker.IPNet → String
  marshalIndent : Instance_info → String
  openFile : String → Option String
  write : String → String → os.WriteResult
  files : os.Files

/-- The state of one activation of `initializeContainer` when its body is
left: the local `ok`, how the body ended, the calls issued so far and the
files. -/
structure Frame where
  ok : Bool
  ret : Outcome (Except Error vminfo)
  calls : List Call
  files : os.Files

/-- What a call of `initializeContainer` leaves behind. -/
structure Run where
  ret : Outcome (Except Error vminfo)
  calls : List Call
  files : os.Files

/-- Strconv `Itoa`: decimal, with a minus sign for a negative number. -/
def Itoa (i : Int) : String := toString i

/-- Line 225: the name of the side file of an instance. -/
def logfile (cfg : drivers.TaskConfig) : String := "/tmp/" ++ cfg.Name ++ "-" ++ cfg.AllocID

/-- Lines 219-237: assemble the record, serialise it, append it to the side
file, commit. -/
def initializeContainer.persist (env : Env) (cfg : drivers.TaskConfig)
    (vmmCancel : context.CancelFunc) (m : firecracker.Machine) (tty : console.Console)
    (ftty : String) (pid : Int) (ip vnic : String) (calls : List Call) : Frame :=
  let info : Instance_info :=
    { Serial := ftty, AllocId := cfg.AllocID, Ip := ip, Pid := Itoa pid, Vnic := vnic }
  let f := env.marshalIndent info
  let logfile := logfile cfg
  let calls := calls ++ [Call.openFile logfile [.O_CREATE, .O_APPEND, .O_WRONLY] 0o644]
  match env.openFile logfile with
  | some err =>
    { ok := false, ret := .returned (.error (.creatingInfoFile logfile err)), calls := calls,
      files := env.files }
  | none =>
    let files := env.files.create logfile
    -- defer log.Close()
    let calls := calls ++ [Call.write logfile f]
    let files := files.append logfile ((env.write logfile f).written f)
    -- ok = true; return; the deferred Close runs
    { ok := true,
      ret := .returned (.ok { Machine := m, tty := ftty, Info := info, Console := tty,
                              Cancel := vmmCancel }),
      calls := calls ++ [Call.close logfile], files := files }

/-- Lines 144-152: the hypervisor binary, from the explicit option, the value
of `FIRECRACKER_BIN` and the fixed default. -/
def firecrackerBinary (opts : options) (fcenv : String) : String :=
  if len opts.FcBinary > 0 then opts.FcBinary
  else if len fcenv > 0 then fcenv
  else "/usr/bin/firecracker"

/-- Lines 210-218: the IP and the virtual NIC name. Indexing an empty slice
and dereferencing a nil pointer are run-time faults. -/
def networkFacts (env : Env) (opts : options) (fcCfg : firecracker.Config) :
    Outcome (String × String) :=
  if len opts.FcNetworkName > 0 then
    match fcCfg.NetworkInterfaces with
    | [] => .panicked .indexOutOfRange
    | nic :: _ =>
      match nic.StaticConfiguration with
      | none => .panicked .nilDereference
      | some static =>
        match static.IPConfiguration with
        | none => .panicked .nilDereference
        | some ipc =>
          let ip := env.ipNetString ipc.IPAddr
          match nic.CNIConfiguration with
          | none => .panicked .nilDereference
          | some cni =>
            let vnic := cni.IfName ++ "vm"
            .returned (ip, vnic)
  else
    let ip := "No network chosen"
    let vnic := ip
    .returned (ip, vnic)

/-- Lines 140-218: everything between the registration of the deferred
rollback and the assembly of the record. -/
def initializeContainer.body (env : Env) (ctx : context.Context) (cfg : drivers.TaskConfig)
    (opts : options) (fcCfg : firecracker.Config) (vmmCtx : context.Context)
    (vmmCancel : context.CancelFunc) : Frame :=
  let fail (calls : List Call) (e : Error) : Frame :=
    { ok := false, ret := .returned (.error e), calls := calls, files := env.files }
  let fcenv := env.getenv "FIRECRACKER_BIN"
  let firecrackerBinary := firecrackerBinary opts fcenv
  let calls := [Call.stat firecrackerBinary]
  match env.stat firecrackerBinary with
  | .error err =>
    if err.isNotExist then fail calls (.doesNotExist firecrackerBinary err.msg)
    else fail calls (.failedToStat firecrackerBinary err.msg)
  | .ok finfo =>
    if finfo.IsDir then fail calls (.isDirectory firecrackerBinary)
    else if finfo.Mode &&& executableMask = 0 then fail calls (.notExecutable firecrackerBinary)
    else
    let calls := calls ++ [Call.newPty]
    match env.newPty with
    | .error err => fail calls (.console err)
    | .ok (tty, ftty) =>
      let cmd : firecracker.Command :=
        { Bin := firecrackerBinary, SocketPath := fcCfg.SocketPath, Stdin := tty, Stdout := tty,
          Stderr := tty, Ctx := ctx }
      let calls := calls ++ [Call.newMachine vmmCtx cmd]
      match env.newMachine vmmCtx fcCfg cmd with
      | .error err => fail calls (.creatingMachine err)
      | .ok m =>
        let calls := calls ++ [Call.start vmmCtx]
        match env.start m vmmCtx with
        | some err => fail calls (.startMachine err)
        | none =>
          let calls :=
            match opts.validMetadata with
            | some md => calls ++ [Call.setMetadata vmmCtx md]
            | none => calls
          let calls := calls ++ [Call.pid]
          match env.pid m with
          | .error errpid => fail calls (.gettingPid errpid)
          | .ok pid =>
            match networkFacts env opts fcCfg with
            | .panicked fault =>
              { ok := false, ret := .panicked fault, calls := calls, files := env.files }
            | .returned (ip, vnic) =>
              initializeContainer.persist env cfg vmmCancel m tty ftty pid ip vnic calls

/-- The function `initializeContainer`. Logging is left out. The deferred
closure registered right after `context.WithCancel` runs when the body is
left, by return or by panic, and calls `vmmCancel` unless `ok` was set. -/
def initializeContainer (env : Env) (ctx : context.Context) (cfg : drivers.TaskConfig)
    (taskConfig : TaskConfig) : Run :=
  let opts := (taskConfig2FirecrackerOpts taskConfig cfg).1
  match env.getFirecrackerConfig opts cfg.AllocID with
  | (_, .error err) => { ret := .returned (.error (.config err)), calls := [], files := env.files }
  | (validMetadata, .ok fcCfg) =>
    let opts := { opts with validMetadata := validMetadata }
    let (vmmCtx, vmmCancel) := context.WithCancel ctx
    let frame := initializeContainer.body env ctx cfg opts fcCfg vmmCtx vmmCancel
    let calls := if !frame.ok then frame.calls ++ [Call.cancel vmmCancel] else frame.calls
    { ret := frame.ret, calls := calls, files := frame.files }

/-- The function `tickle`, over the outcome of opening the pty (`none` when
it succeeds) and of writing to it: the calls it issues. It returns no value;
the log lines are left out. -/
def tickle (openErr : Option String) (writeErr : Option String) (pty : String) : List Call :=
  let calls := [Call.openFile pty [.O_RDWR, .O_NONBLOCK] 0]
  match openErr with
  | some _ => calls
  | none =>
    let calls := calls ++ [Call.write pty "exit"]
    match writeErr with
    | some _ => calls
    | none => calls ++ [Call.close pty]

/-! ## Notions of the design document -/

/-- The launch options carry a network interface config: the field differs
from its value in fresh options. -/
def hasNicConfig (o : options) : Prop := o.FcNicConfig ≠ newOptions.FcNicConfig

instance : DecidablePred hasNicConfig := fun o => by unfold hasNicConfig; infer_instance

/-- The launch options carry a network name. -/
def hasNetworkName (o : options) : Prop := o.FcNetworkName ≠ ""

instance : DecidablePred hasNetworkName := fun o => by unfold hasNetworkName; infer_instance

/-- The network invariant of the launch options in the data model: no
network at all, or a network interface config together with a network name. -/
def networkInvariant (o : options) : Prop :=
  (¬ hasNicConfig o ∧ ¬ hasNetworkName o) ∨ (hasNicConfig o ∧ hasNetworkName o)

instance : DecidablePred networkInvariant := fun o => by unfold networkInvariant; infer_instance

/-- The fallible steps of the start-up sequence that run once the
instance-scoped context exists, in the order of the source. -/
inductive Step where
  | binary
  | console
  | machine
  | start
  | pid
  | sideFile
deriving DecidableEq, Repr

/-- The step an error value comes from; the error of `getFirecrackerConfig`
precedes the sequence. -/
def Error.step : Error → Option Step
  | .config _ => none
  | .doesNotExist _ _ => some .binary
  | .failedToStat _ _ => some .binary
  | .isDirectory _ => some .binary
  | .notExecutable _ => some .binary
  | .console _ => some .console
  | .creatingMachine _ => some .machine
  | .startMachine _ => some .start
  | .gettingPid _ => some .pid
  | .creatingInfoFile _ _ => some .sideFile

/-- The three errors of binary validation in the error taxonomy of the design
document. -/
inductive BinaryError where
  | BinaryNotFoundError
  | BinaryStatError
  | BinaryNotExecutableError
deriving DecidableEq, Repr

/-- The place of an error value in that taxonomy: a directory and a file
without execute bit are both "not executable". -/
def Error.binaryError : Error → Option BinaryError
  | .doesNotExist _ _ => some .BinaryNotFoundError
  | .failedToStat _ _ => some .BinaryStatError
  | .isDirectory _ => some .BinaryNotExecutableError
  | .notExecutable _ => some .BinaryNotExecutableError
  | _ => none

/-- The first step that fails in an environment, each step being asked with
the results of the steps before it; `none` when every step succeeds. -/
def firstFailure (env : Env) (ctx : context.Context) (cfg : drivers.TaskConfig)
    (opts : options) (fcCfg : firecracker.Config) : Option Step :=
  let bin := firecrackerBinary opts (env.getenv "FIRECRACKER_BIN")
  match env.stat bin with
  | .error _ => some .binary
  | .ok finfo =>
    if finfo.IsDir = true ∨ finfo.Mode &&& executableMask = 0 then some .binary
    else
      match env.newPty with
      | .error _ => some .console
      | .ok (tty, _) =>
        match env.newMachine (context.WithCancel ctx).1 fcCfg
            { Bin := bin, SocketPath := fcCfg.SocketPath, Stdin := tty, Stdout := tty,
              Stderr := tty, Ctx := ctx } with
        | .error _ => some .machine
        | .ok m =>
          match env.start m (context.WithCancel ctx).1 with
          | some _ => some .start
          | none =>
            match env.pid m with
            | .error _ => some .pid
            | .ok _ =>
              match env.openFile (logfile cfg) with
              | some _ => some .sideFile
              | none => none

/-- The hypervisor binary of a call of `initializeContainer`: the local
`firecrackerBinary`, from the translated options and the environment. -/
def binaryOf (env : Env) (taskConfig : TaskConfig) (cfg : drivers.TaskConfig) : String :=
  firecrackerBinary (taskConfig2FirecrackerOpts taskConfig cfg).1 (env.getenv "FIRECRACKER_BIN")

/-- The hypervisor config has a first network interface with a static
configuration, an IP configuration in it, and a CNI configuration. -/
def firstInterfaceConfigured (fcCfg : firecracker.Config) : Bool :=
  match fcCfg.NetworkInterfaces with
  | ⟨some ⟨some _⟩, some _⟩ :: _ => true
  | _ => false

/-- A call is a write. -/
def Call.isWrite : Call → Bool
  | .write _ _ => true
  | _ => false

/-- The layout of `json.MarshalIndent(info, "", " ")` on a record whose field
values need no escaping; the serialiser of the concrete environments below. -/
def plainMarshalIndent (info : Instance_info) : String :=
  "\x7b\n \"AllocId\": \"" ++ info.AllocId ++ "\",\n \"Ip\": \"" ++ info.Ip ++
  "\",\n \"Serial\": \"" ++ info.Serial ++ "\",\n \"Pid\": \"" ++ info.Pid ++
  "\",\n \"Vnic\": \"" ++ info.Vnic ++ "\"\n\x7d"

/-- A task configuration with every field at its zero value. -/
def tc0 : TaskConfig :=
  { KernelImage := "", BootDisk := "", Disks := [], BootOptions := "", Nic := ⟨"", []⟩,
    Network := "", Log := "", Cputype := "", DisableHt := false, Firecracker := "" }

/-- An allocation: task `web` of allocation `a1` under `/alloc`. -/
def cfg0 : drivers.TaskConfig :=
  { AllocID := "a1", Name := "web", AllocDir := "/alloc", Resources := ⟨⟨⟨250⟩, ⟨0⟩⟩⟩ }

/-- A hypervisor config with one CNI interface `veth0` that has a static
address. -/
def fcCfg0 : firecracker.Config :=
  { SocketPath := "/tmp/fc.sock",
    NetworkInterfaces := [⟨some ⟨some ⟨⟨[10, 0, 0, 2], [255, 255, 255, 0]⟩⟩⟩, some ⟨"veth0"⟩⟩] }

/-- An environment in which every step succeeds: an executable regular file
at every path, a pty at `/dev/pts/3`, machine 1 with process id 4242, the
config `fcCfg0`, and an empty file system. -/
def env0 : Env :=
  { getFirecrackerConfig := fun _ _ => (none, .ok fcCfg0)
    getenv := fun _ => ""
    stat := fun _ => .ok ⟨false, 0o755⟩
    newPty := .ok (⟨7, "/dev/ptmx"⟩, "/dev/pts/3")
    newMachine := fun _ _ _ => .ok ⟨1⟩
    start := fun _ _ => none
    setMetadata := fun _ _ _ => none
    pid := fun _ => .ok 4242
    ipNetString := fun _ => "10.0.0.2/24"
    marshalIndent := plainMarshalIndent
    openFile := fun _ => none
    write := fun _ _ => .done
    files := fun _ => none }

/-- The environment `env0` with the process id unavailable after a successful
start. -/
def envNoPid : Env := { env0 with pid := fun _ => .error "process not running" }

/-- The environment `env0` with a hypervisor binary that is a regular file
without any execute bit. -/
def envNoExec : Env := { env0 with stat := fun _ => .ok ⟨false, 0o644⟩ }

/-- The environment `env0` with `FIRECRACKER_BIN` set. -/
def envBin : Env := { env0 with getenv := fun _ => "/opt/fc/firecracker" }

/-- The environment `env0` with the side file of task `web` of allocation
`a1` left over from an earlier instance. -/
def envStale : Env :=
  { env0 with files := fun n => if n = "/tmp/web-a1" then some "stale" else none }

/-- The environment `env0` with every write failing before any character
reaches the file. -/
def envWriteFails : Env := { env0 with write := fun _ _ => .failed 0 "no space left on device" }

end firevm

/-! # Theorems -/


/-! ## Library lemmas -/

theorem len_pos_iff (s : String) : 0 < len s ↔ s ≠ "" := by
  obtain ⟨cs⟩ := s
  cases cs with
  | nil => simp [len, String.utf8ByteSize, String.utf8ByteSize.go]
  | cons c cs =>
    have h := Char.utf8Size_pos c
    have h2 : (⟨c :: cs⟩ : String) ≠ "" := by
      intro h; exact absurd (congrArg String.data h) (by simp)
    simp only [len, String.utf8ByteSize, String.utf8ByteSize.go, ne_eq, h2, not_false_eq_true,
      iff_true]
    omega

namespace filepath

theorem splitElems_ne_nil (p : List Char) : splitElems p ≠ [] := by
  cases p with
  | nil => simp [splitElems]
  | cons c cs =>
    simp only [splitElems]
    split
    · simp
    · split <;> simp

theorem splitElems_cons (c : Char) (cs : List Char) :
    splitElems (c :: cs) =
      match splitElems cs with
      | [] => [[]]
      | e :: es => if c = '/' then [] :: e :: es else (c :: e) :: es := rfl

theorem splitElems_append_sep (p q : List Char) :
    splitElems (p ++ '/' :: q) = splitElems p ++ splitElems q := by
  induction p with
  | nil =>
    rw [List.nil_append, splitElems_cons]
    cases h : splitElems q with
    | nil => exact absurd h (splitElems_ne_nil q)
    | cons e es => simp [splitElems]
  | cons c cs ih =>
    rw [List.cons_append, splitElems_cons, ih, splitElems_cons]
    cases h : splitElems cs with
    | nil => exact absurd h (splitElems_ne_nil cs)
    | cons e es =>
      simp only [List.cons_append]
      split <;> rfl

theorem splitElems_of_no_sep (n : List Char) (h : '/' ∉ n) : splitElems n = [n] := by
  induction n with
  | nil => rfl
  | cons c cs ih =>
    simp only [List.mem_cons, not_or] at h
    have hc : c ≠ '/' := fun hc => h.1 hc.symm
    rw [splitElems_cons, ih h.2]
    simp only [if_neg hc]

theorem joinElems_append_singleton (xs : List (List Char)) (n : List Char) (h : xs ≠ []) :
    joinElems (xs ++ [n]) = joinElems xs ++ '/' :: n := by
  induction xs with
  | nil => exact absurd rfl h
  | cons x xs ih =>
    cases xs with
    | nil => simp [joinElems]
    | cons y ys =>
      have := ih (by simp)
      simp only [List.cons_append] at this ⊢
      simp only [joinElems, this, List.append_assoc, List.cons_append]

theorem cleanStep_plain (rooted : Bool) (st : CleanState) (n : List Char)
    (h0 : n ≠ []) (h1 : n ≠ ['.']) (h2 : n ≠ ['.', '.']) :
    cleanStep rooted st n = { st with elems := n :: st.elems } := by
  simp only [cleanStep, if_neg h0, if_neg h1, if_neg h2]

theorem cleanChars_append_plain (p n : List Char) (hp : cleanChars p = p)
    (hroot : p ≠ ['/']) (hdot : p ≠ ['.'])
    (h0 : n ≠ []) (hsep : '/' ∉ n) (h1 : n ≠ ['.']) (h2 : n ≠ ['.', '.']) :
    cleanChars (p ++ '/' :: n) = p ++ '/' :: n := by
  cases p with
  | nil => simp [cleanChars] at hp
  | cons c cs =>
    simp only [cleanChars] at hp
    simp only [List.cons_append, cleanChars]
    rw [← List.cons_append, splitElems_append_sep, splitElems_of_no_sep n hsep,
      List.foldl_append]
    simp only [List.foldl_cons, List.foldl_nil]
    generalize (splitElems (c :: cs)).foldl (cleanStep (decide (c = '/'))) ⟨0, []⟩ = st at hp ⊢
    rw [cleanStep_plain _ _ _ h0 h1 h2]
    simp only [render, List.reverse_cons, ← List.append_assoc] at hp ⊢
    generalize List.replicate st.dotdot ['.', '.'] ++ st.elems.reverse = xs at hp ⊢
    have hxs : xs ≠ [] := by
      intro hx
      subst hx
      simp only [joinElems] at hp
      split at hp
      · exact hroot hp.symm
      · exact hdot (by simpa using hp.symm)
    rw [joinElems_append_singleton xs n hxs]
    split at hp
    · rename_i hr
      rw [if_pos hr, ← List.cons_append, hp]
    · rename_i hr
      rw [if_neg hr]
      split at hp
      · exact absurd hp.symm hdot
      · rw [if_neg (by simp), hp]

theorem Join_plain (d n : String) (hd : plainDir d) (hn : plainName n) :
    Join d n = d ++ "/" ++ n := by
  obtain ⟨hclean, hroot, hdot⟩ := hd
  obtain ⟨h0, hsep, h1, h2⟩ := hn
  have hne : d ≠ "" := by
    intro h; subst h; revert hclean; decide
  simp only [Join, ne_eq, hne, not_false_eq_true, if_true]
  have hp : cleanChars d.data = d.data := by
    have := congrArg String.data hclean
    simpa [Clean] using this
  have ofData : ∀ (s : String) (l : List Char), s ≠ ⟨l⟩ → s.data ≠ l := by
    intro s l h hs; apply h; exact String.ext hs
  apply String.ext
  simp only [Clean, String.data_append]
  rw [List.append_assoc, List.singleton_append]
  exact cleanChars_append_plain d.data n.data hp (ofData d _ hroot) (ofData d _ hdot)
    (ofData n _ h0) hsep (ofData n _ h1) (ofData n _ h2)

end filepath

namespace firevm

theorem taskConfig2FirecrackerOpts_fields (tc : TaskConfig) (cfg : drivers.TaskConfig) :
    taskConfig2FirecrackerOpts tc cfg =
      ({ FcBinary := tc.Firecracker
         FcKernelImage :=
           if len tc.KernelImage > 0 then tc.KernelImage
           else filepath.Join cfg.AllocDir cfg.Name ++ "/vmlinux"
         FcKernelCmdLine :=
           if len tc.BootOptions > 0 then tc.BootOptions ++ defaultbootoptions
           else defaultbootoptions
         FcRootDrivePath :=
           if len tc.BootDisk > 0 then tc.BootDisk
           else filepath.Join cfg.AllocDir cfg.Name ++ "/rootfs.ext4"
         FcAdditionalDrives := if tc.Disks.length > 0 then tc.Disks else []
         FcNicConfig := if len tc.Nic.Ip > 0 then tc.Nic else ⟨"", []⟩
         FcNetworkName := if len tc.Network > 0 then tc.Network else ""
         FcFifoLogFile := if len tc.Log > 0 then tc.Log else ""
         FcLogLevel := if len tc.Log > 0 then "Debug" else ""
         FcCPUTemplate := tc.Cputype
         FcCPUCount :=
           if cfg.Resources.NomadResources.Cpu.CpuShares > 100 then
             Int.tdiv cfg.Resources.NomadResources.Cpu.CpuShares 100
           else 1
         FcMemSz :=
           if cfg.Resources.NomadResources.Memory.MemoryMB > 0 then
             cfg.Resources.NomadResources.Memory.MemoryMB
           else 300
         FcDisableHt := tc.DisableHt
         Debug := if len tc.Log > 0 then true else false
         validMetadata := none }, none) := by
  unfold taskConfig2FirecrackerOpts
  lift_lets
  intro o1 o2 o3 o4 o5 o6 o7 o8 o9 o10 o11 o12 o13
  have e2 : o2 = { o1 with FcKernelImage := if len tc.KernelImage > 0 then tc.KernelImage
           else filepath.Join cfg.AllocDir cfg.Name ++ "/vmlinux" } := by
    simp only [o2]; split <;> rfl
  have e3 : o3 = { o2 with FcRootDrivePath := if len tc.BootDisk > 0 then tc.BootDisk
           else filepath.Join cfg.AllocDir cfg.Name ++ "/rootfs.ext4" } := by
    simp only [o3]; split <;> rfl
  have e4 : o4 = { o3 with FcAdditionalDrives := if tc.Disks.length > 0 then tc.Disks else o3.FcAdditionalDrives } := by
    simp only [o4]; split <;> rfl
  have e5 : o5 = { o4 with FcKernelCmdLine := if len tc.BootOptions > 0 then tc.BootOptions ++ defaultbootoptions
           else defaultbootoptions } := by
    simp only [o5]; split <;> rfl
  have e6 : o6 = { o5 with FcNicConfig := if len tc.Nic.Ip > 0 then tc.Nic else o5.FcNicConfig } := by
    simp only [o6]; split <;> rfl
  have e7 : o7 = { o6 with FcNetworkName := if len tc.Network > 0 then tc.Network else o6.FcNetworkName } := by
    simp only [o7]; split <;> rfl
  have e8 : o8 = { o7 with FcFifoLogFile := if len tc.Log > 0 then tc.Log else o7.FcFifoLogFile,
                           Debug := if len tc.Log > 0 then true else o7.Debug,
                           FcLogLevel := if len tc.Log > 0 then "Debug" else o7.FcLogLevel } := by
    simp only [o8]; split <;> rfl
  have e9 : o9 = { o8 with
      FcCPUCount :=
        if cfg.Resources.NomadResources.Cpu.CpuShares > 100 then
          Int.tdiv cfg.Resources.NomadResources.Cpu.CpuShares 100
        else 1 } := by
    simp only [o9]; split <;> rfl
  have e12 : o12 = { o11 with
      FcMemSz :=
        if cfg.Resources.NomadResources.Memory.MemoryMB > 0 then
          cfg.Resources.NomadResources.Memory.MemoryMB
        else 300 } := by
    simp only [o12]; split <;> rfl
  simp only [o13, e12, o11, o10, e9, e8, e7, e6, e5, e4, e3, e2, o1, newOptions]

/-- C7: the CPU count is `cpuShares / 100` when `cpuShares > 100` and 1
otherwise, for every integer value of the shares (so for every signed 64-bit
one); it is at least 1 in every case, and 100, 250 and 0 shares give 1, 2
and 1. -/
theorem cpu_count_from_shares (tc : TaskConfig) (cfg : drivers.TaskConfig) :
    ((taskConfig2FirecrackerOpts tc cfg).1.FcCPUCount =
        if cfg.Resources.NomadResources.Cpu.CpuShares > 100 then
          cfg.Resources.NomadResources.Cpu.CpuShares / 100
        else 1) ∧
    1 ≤ (taskConfig2FirecrackerOpts tc cfg).1.FcCPUCount ∧
    (taskConfig2FirecrackerOpts tc
      { cfg with Resources := ⟨⟨⟨100⟩, cfg.Resources.NomadResources.Memory⟩⟩ }).1.FcCPUCount = 1 ∧
    (taskConfig2FirecrackerOpts tc
      { cfg with Resources := ⟨⟨⟨250⟩, cfg.Resources.NomadResources.Memory⟩⟩ }).1.FcCPUCount = 2 ∧
    (taskConfig2FirecrackerOpts tc
      { cfg with Resources := ⟨⟨⟨0⟩, cfg.Resources.NomadResources.Memory⟩⟩ }).1.FcCPUCount = 1 := by
  simp only [taskConfig2FirecrackerOpts_fields]
  refine ⟨?_, ?_, by decide, by decide, by decide⟩
  · split
    · rename_i h
      exact Int.tdiv_eq_ediv (by omega) (by decide)
    · rfl
  · split
    · rename_i h
      rw [Int.tdiv_eq_ediv (by omega) (by decide)]
      omega
    · decide

/-- C9: the memory size is `memoryMB` when `memoryMB > 0` and 300 otherwise,
for every integer value (so for every signed 64-bit one); it is strictly
positive in every case, 0 gives 300 and 512 gives 512. -/
theorem mem_size_from_memory_mb (tc : TaskConfig) (cfg : drivers.TaskConfig) :
    ((taskConfig2FirecrackerOpts tc cfg).1.FcMemSz =
        if cfg.Resources.NomadResources.Memory.MemoryMB > 0 then
          cfg.Resources.NomadResources.Memory.MemoryMB
        else 300) ∧
    0 < (taskConfig2FirecrackerOpts tc cfg).1.FcMemSz ∧
    (taskConfig2FirecrackerOpts tc
      { cfg with Resources := ⟨⟨cfg.Resources.NomadResources.Cpu, ⟨0⟩⟩⟩ }).1.FcMemSz = 300 ∧
    (taskConfig2FirecrackerOpts tc
      { cfg with Resources := ⟨⟨cfg.Resources.NomadResources.Cpu, ⟨512⟩⟩⟩ }).1.FcMemSz = 512 := by
  simp only [taskConfig2FirecrackerOpts_fields]
  refine ⟨trivial, ?_, by decide, by decide⟩
  split
  · assumption
  · decide


theorem append_ne_empty (a b : String) (hb : b ≠ "") : a ++ b ≠ "" := by
  intro h
  have h2 := congrArg String.data h
  rw [String.data_append] at h2
  have h3 : b.data = [] := (List.append_eq_nil.mp h2).2
  exact hb (String.ext h3)

/-- C6: the translator returns no error; the kernel image is the explicit
path when there is one and otherwise `filepath.Join(allocDir, taskName)`
followed by `/vmlinux`, which is literally `allocDir/taskName/vmlinux` when
the allocation directory is a clean path and the task name a single path
element; the root drive likewise with `/rootfs.ext4`; both are non-empty; and
the two scenarios of the design document come out as stated. -/
theorem translator_total_default_paths (tc : TaskConfig) (cfg : drivers.TaskConfig) :
    (taskConfig2FirecrackerOpts tc cfg).2 = none ∧
    (tc.KernelImage ≠ "" →
      (taskConfig2FirecrackerOpts tc cfg).1.FcKernelImage = tc.KernelImage) ∧
    (tc.KernelImage = "" →
      (taskConfig2FirecrackerOpts tc cfg).1.FcKernelImage =
        filepath.Join cfg.AllocDir cfg.Name ++ "/vmlinux") ∧
    (tc.KernelImage = "" → filepath.plainDir cfg.AllocDir → filepath.plainName cfg.Name →
      (taskConfig2FirecrackerOpts tc cfg).1.FcKernelImage =
        cfg.AllocDir ++ "/" ++ cfg.Name ++ "/vmlinux") ∧
    (tc.BootDisk ≠ "" →
      (taskConfig2FirecrackerOpts tc cfg).1.FcRootDrivePath = tc.BootDisk) ∧
    (tc.BootDisk = "" →
      (taskConfig2FirecrackerOpts tc cfg).1.FcRootDrivePath =
        filepath.Join cfg.AllocDir cfg.Name ++ "/rootfs.ext4") ∧
    (tc.BootDisk = "" → filepath.plainDir cfg.AllocDir → filepath.plainName cfg.Name →
      (taskConfig2FirecrackerOpts tc cfg).1.FcRootDrivePath =
        cfg.AllocDir ++ "/" ++ cfg.Name ++ "/rootfs.ext4") ∧
    (taskConfig2FirecrackerOpts tc cfg).1.FcKernelImage ≠ "" ∧
    (taskConfig2FirecrackerOpts tc cfg).1.FcRootDrivePath ≠ "" ∧
    (tc.KernelImage = "" → cfg.AllocDir = "/alloc" → cfg.Name = "web" →
      (taskConfig2FirecrackerOpts tc cfg).1.FcKernelImage = "/alloc/web/vmlinux") ∧
    (tc.KernelImage = "" → tc.BootDisk = "" → cfg.AllocDir = "/tmp/a" → cfg.Name = "t1" →
      (taskConfig2FirecrackerOpts tc cfg).1.FcKernelImage = "/tmp/a/t1/vmlinux" ∧
      (taskConfig2FirecrackerOpts tc cfg).1.FcRootDrivePath = "/tmp/a/t1/rootfs.ext4") := by
  have hk := len_pos_iff tc.KernelImage
  have hb := len_pos_iff tc.BootDisk
  simp only [taskConfig2FirecrackerOpts_fields]
  refine ⟨trivial, ?_, ?_, ?_, ?_, ?_, ?_, ?_, ?_, ?_, ?_⟩
  · intro h; rw [if_pos (hk.mpr h)]
  · intro h; rw [if_neg (fun hp => hk.mp hp h)]
  · intro h hd hn; rw [if_neg (fun hp => hk.mp hp h), filepath.Join_plain _ _ hd hn]
  · intro h; rw [if_pos (hb.mpr h)]
  · intro h; rw [if_neg (fun hp => hb.mp hp h)]
  · intro h hd hn; rw [if_neg (fun hp => hb.mp hp h), filepath.Join_plain _ _ hd hn]
  · split
    · rename_i h; exact hk.mp h
    · exact append_ne_empty _ _ (by decide)
  · split
    · rename_i h; exact hb.mp h
    · exact append_ne_empty _ _ (by decide)
  · intro h hd hn; rw [if_neg (fun hp => hk.mp hp h), hd, hn]; decide
  · intro h h2 hd hn
    rw [if_neg (fun hp => hk.mp hp h), if_neg (fun hp => hb.mp hp h2), hd, hn]
    decide

/-- C6, at task `web` of allocation `a1` under `/alloc` with no explicit
kernel image or boot disk. -/
theorem translator_total_default_paths_witness :
    filepath.plainDir cfg0.AllocDir ∧ filepath.plainName cfg0.Name ∧
    (taskConfig2FirecrackerOpts tc0 cfg0).2 = none ∧
    (taskConfig2FirecrackerOpts tc0 cfg0).1.FcKernelImage =
      cfg0.AllocDir ++ "/" ++ cfg0.Name ++ "/vmlinux" ∧
    (taskConfig2FirecrackerOpts tc0 cfg0).1.FcKernelImage = "/alloc/web/vmlinux" ∧
    (taskConfig2FirecrackerOpts tc0 { cfg0 with AllocDir := "/tmp/a", Name := "t1" }).1.FcRootDrivePath
      = "/tmp/a/t1/rootfs.ext4" :=
  ⟨by decide, by decide, (translator_total_default_paths tc0 cfg0).1,
   (translator_total_default_paths tc0 cfg0).2.2.2.1 rfl (by decide) (by decide),
   (translator_total_default_paths tc0 cfg0).2.2.2.2.2.2.2.2.2.1 rfl rfl rfl,
   ((translator_total_default_paths tc0 { cfg0 with AllocDir := "/tmp/a", Name := "t1" }
      ).2.2.2.2.2.2.2.2.2.2 rfl rfl rfl rfl).2⟩

/-- The network fields of the translated options. -/
theorem network_flags (tc : TaskConfig) (cfg : drivers.TaskConfig) :
    ((taskConfig2FirecrackerOpts tc cfg).1.FcNicConfig =
      if tc.Nic.Ip ≠ "" then tc.Nic else newOptions.FcNicConfig) ∧
    (taskConfig2FirecrackerOpts tc cfg).1.FcNetworkName = tc.Network := by
  have hi := len_pos_iff tc.Nic.Ip
  have hn := len_pos_iff tc.Network
  constructor
  · simp only [taskConfig2FirecrackerOpts_fields, newOptions]
    by_cases h : tc.Nic.Ip = ""
    · rw [if_neg (fun hp => hi.mp hp h), if_neg (by simpa using h)]
    · rw [if_pos (hi.mpr h), if_pos h]
  · simp only [taskConfig2FirecrackerOpts_fields]
    by_cases h : tc.Network = ""
    · rw [if_neg (fun hp => hn.mp hp h), h]
    · rw [if_pos (hn.mpr h)]

/-- C4, refuted as stated: a task with a network name and no interface IP
yields options with a network name and no network interface config. -/
theorem network_invariant_broken_by_name_alone :
    hasNetworkName (taskConfig2FirecrackerOpts { tc0 with Network := "default" } cfg0).1 ∧
    ¬ hasNicConfig (taskConfig2FirecrackerOpts { tc0 with Network := "default" } cfg0).1 ∧
    ¬ networkInvariant (taskConfig2FirecrackerOpts { tc0 with Network := "default" } cfg0).1 := by
  decide

/-- C4, as amended: the two network flags are set independently - the
network interface config exactly when the task gives an interface IP, the
network name exactly when the task gives a network name - so the options
satisfy the neither-or-both invariant exactly when the task gives both or
neither. -/
theorem network_flags_independent (tc : TaskConfig) (cfg : drivers.TaskConfig) :
    (hasNicConfig (taskConfig2FirecrackerOpts tc cfg).1 ↔ tc.Nic.Ip ≠ "") ∧
    (hasNetworkName (taskConfig2FirecrackerOpts tc cfg).1 ↔ tc.Network ≠ "") ∧
    ((taskConfig2FirecrackerOpts tc cfg).1.FcNicConfig =
      if tc.Nic.Ip ≠ "" then tc.Nic else newOptions.FcNicConfig) ∧
    (taskConfig2FirecrackerOpts tc cfg).1.FcNetworkName = tc.Network ∧
    (networkInvariant (taskConfig2FirecrackerOpts tc cfg).1 ↔
      (tc.Nic.Ip ≠ "" ↔ tc.Network ≠ "")) := by
  have hi := len_pos_iff tc.Nic.Ip
  have hn := len_pos_iff tc.Network
  have h1 : hasNicConfig (taskConfig2FirecrackerOpts tc cfg).1 ↔ tc.Nic.Ip ≠ "" := by
    simp only [hasNicConfig, taskConfig2FirecrackerOpts_fields, newOptions]
    by_cases h : tc.Nic.Ip = ""
    · rw [if_neg (fun hp => hi.mp hp h)]; simp [h]
    · rw [if_pos (hi.mpr h)]
      constructor
      · intro _; exact h
      · intro _ he; exact h (by rw [he])
  have h2 : hasNetworkName (taskConfig2FirecrackerOpts tc cfg).1 ↔ tc.Network ≠ "" := by
    simp only [hasNetworkName, taskConfig2FirecrackerOpts_fields]
    by_cases h : tc.Network = ""
    · rw [if_neg (fun hp => hn.mp hp h)]; simp [h]
    · rw [if_pos (hn.mpr h)]
  refine ⟨h1, h2, (network_flags tc cfg).1, (network_flags tc cfg).2, ?_⟩
  simp only [networkInvariant, h1, h2]
  tauto

/-! ## The body of `initializeContainer`, case by case -/

theorem body_ok (env : Env) (ctx : context.Context) (cfg : drivers.TaskConfig) (opts : options)
    (fcCfg : firecracker.Config) (vmmCtx : context.Context) (vmmCancel : context.CancelFunc)
    (v : vminfo)
    (h : (initializeContainer.body env ctx cfg opts fcCfg vmmCtx vmmCancel).ret =
      .returned (.ok v)) :
    ∃ fi tty ftty m pid ip vnic,
      env.stat (firecrackerBinary opts (env.getenv "FIRECRACKER_BIN")) = .ok fi ∧
      fi.IsDir = false ∧ fi.Mode &&& executableMask ≠ 0 ∧
      env.newPty = .ok (tty, ftty) ∧
      env.newMachine vmmCtx fcCfg
        { Bin := firecrackerBinary opts (env.getenv "FIRECRACKER_BIN"),
          SocketPath := fcCfg.SocketPath, Stdin := tty, Stdout := tty, Stderr := tty,
          Ctx := ctx } = .ok m ∧
      env.start m vmmCtx = none ∧
      env.pid m = .ok pid ∧
      networkFacts env opts fcCfg = .returned (ip, vnic) ∧
      env.openFile (logfile cfg) = none ∧
      initializeContainer.body env ctx cfg opts fcCfg vmmCtx vmmCancel =
        initializeContainer.persist env cfg vmmCancel m tty ftty pid ip vnic
          ([Call.stat (firecrackerBinary opts (env.getenv "FIRECRACKER_BIN")), Call.newPty,
            Call.newMachine vmmCtx
              { Bin := firecrackerBinary opts (env.getenv "FIRECRACKER_BIN"),
                SocketPath := fcCfg.SocketPath, Stdin := tty, Stdout := tty, Stderr := tty,
                Ctx := ctx },
            Call.start vmmCtx] ++
           (match opts.validMetadata with
            | some md => [Call.setMetadata vmmCtx md]
            | none => []) ++ [Call.pid]) := by
  unfold initializeContainer.body at h ⊢
  simp only [] at h ⊢
  cases h1 : env.stat (firecrackerBinary opts (env.getenv "FIRECRACKER_BIN")) with
  | error err =>
    rw [h1] at h; simp only [] at h
    split at h <;> simp at h
  | ok fi =>
    rw [h1] at h; simp only [] at h ⊢
    by_cases hd : fi.IsDir = true
    · rw [if_pos hd] at h; simp at h
    rw [if_neg hd] at h ⊢
    by_cases hx : fi.Mode &&& executableMask = 0
    · rw [if_pos hx] at h; simp at h
    rw [if_neg hx] at h ⊢
    cases h2 : env.newPty with
    | error err => rw [h2] at h; simp at h
    | ok pty =>
      obtain ⟨tty, ftty⟩ := pty
      rw [h2] at h; simp only [] at h ⊢
      cases h3 : env.newMachine vmmCtx fcCfg
          { Bin := firecrackerBinary opts (env.getenv "FIRECRACKER_BIN"),
            SocketPath := fcCfg.SocketPath, Stdin := tty, Stdout := tty, Stderr := tty,
            Ctx := ctx } with
      | error err => rw [h3] at h; simp at h
      | ok m =>
        rw [h3] at h; simp only [] at h ⊢
        cases h4 : env.start m vmmCtx with
        | some err => rw [h4] at h; simp at h
        | none =>
          rw [h4] at h; simp only [] at h ⊢
          cases h5 : env.pid m with
          | error err => rw [h5] at h; simp at h
          | ok pid =>
            rw [h5] at h; simp only [] at h ⊢
            cases h6 : networkFacts env opts fcCfg with
            | panicked p => rw [h6] at h; simp at h
            | returned facts =>
              obtain ⟨ip, vnic⟩ := facts
              rw [h6] at h; simp only [] at h ⊢
              cases h7 : env.openFile (logfile cfg) with
              | some err =>
                simp only [initializeContainer.persist, h7] at h
                simp at h
              | none =>
                refine ⟨fi, tty, ftty, m, pid, ip, vnic, ?_, by simpa using hd, hx, ?_, ?_, ?_,
                  ?_, ?_, ?_, ?_⟩
                all_goals first
                  | rfl
                  | assumption
                  | (cases opts.validMetadata <;> rfl)

/-- Every way through the body of `initializeContainer`, with the frame it
leaves: the four failures of binary validation, the failure of each later
step, the fault in the network facts, and the committed run. -/
theorem body_cases (env : Env) (ctx : context.Context) (cfg : drivers.TaskConfig)
    (opts : options) (fcCfg : firecracker.Config) (vmmCtx : context.Context)
    (vmmCancel : context.CancelFunc) :
    ∀ bin, bin = firecrackerBinary opts (env.getenv "FIRECRACKER_BIN") →
    ∀ frame, frame = initializeContainer.body env ctx cfg opts fcCfg vmmCtx vmmCancel →
    (∃ err, env.stat bin = .error err ∧ err.isNotExist = true ∧
      frame = ⟨false, .returned (.error (.doesNotExist bin err.msg)), [.stat bin], env.files⟩) ∨
    (∃ err, env.stat bin = .error err ∧ err.isNotExist = false ∧
      frame = ⟨false, .returned (.error (.failedToStat bin err.msg)), [.stat bin], env.files⟩) ∨
    (∃ fi, env.stat bin = .ok fi ∧ fi.IsDir = true ∧
      frame = ⟨false, .returned (.error (.isDirectory bin)), [.stat bin], env.files⟩) ∨
    (∃ fi, env.stat bin = .ok fi ∧ fi.IsDir = false ∧ fi.Mode &&& executableMask = 0 ∧
      frame = ⟨false, .returned (.error (.notExecutable bin)), [.stat bin], env.files⟩) ∨
    (∃ fi, env.stat bin = .ok fi ∧ fi.IsDir = false ∧ fi.Mode &&& executableMask ≠ 0 ∧
      ((∃ err, env.newPty = .error err ∧
        frame = ⟨false, .returned (.error (.console err)), [.stat bin, .newPty], env.files⟩) ∨
       (∃ tty ftty, env.newPty = .ok (tty, ftty) ∧
        ∀ cmd, cmd = (⟨bin, fcCfg.SocketPath, tty, tty, tty, ctx⟩ : firecracker.Command) →
        ((∃ err, env.newMachine vmmCtx fcCfg cmd = .error err ∧
          frame = ⟨false, .returned (.error (.creatingMachine err)),
            [.stat bin, .newPty, .newMachine vmmCtx cmd], env.files⟩) ∨
         (∃ m, env.newMachine vmmCtx fcCfg cmd = .ok m ∧
          ((∃ err, env.start m vmmCtx = some err ∧
            frame = ⟨false, .returned (.error (.startMachine err)),
              [.stat bin, .newPty, .newMachine vmmCtx cmd, .start vmmCtx], env.files⟩) ∨
           (env.start m vmmCtx = none ∧
            ∀ calls, calls = [Call.stat bin, .newPty, .newMachine vmmCtx cmd, .start vmmCtx] ++
                (match opts.validMetadata with
                 | some md => [Call.setMetadata vmmCtx md]
                 | none => []) ++ [Call.pid] →
            ((∃ err, env.pid m = .error err ∧
              frame = ⟨false, .returned (.error (.gettingPid err)), calls, env.files⟩) ∨
             (∃ pid, env.pid m = .ok pid ∧
              ((∃ fault, networkFacts env opts fcCfg = .panicked fault ∧
                frame = ⟨false, .panicked fault, calls, env.files⟩) ∨
               (∃ ip vnic, networkFacts env opts fcCfg = .returned (ip, vnic) ∧
                frame = initializeContainer.persist env cfg vmmCancel m tty ftty pid ip vnic
                  calls))))))))))) := by
  intro bin hbin frame hframe
  subst hbin
  unfold initializeContainer.body at hframe
  simp only [] at hframe
  cases h1 : env.stat (firecrackerBinary opts (env.getenv "FIRECRACKER_BIN")) with
  | error err =>
    rw [h1] at hframe; simp only [] at hframe
    by_cases hn : err.isNotExist = true
    · rw [if_pos hn] at hframe
      exact Or.inl ⟨err, rfl, hn, hframe⟩
    · rw [if_neg hn] at hframe
      exact Or.inr (Or.inl ⟨err, rfl, by simpa using hn, hframe⟩)
  | ok fi =>
    rw [h1] at hframe; simp only [] at hframe
    by_cases hd : fi.IsDir = true
    · rw [if_pos hd] at hframe
      exact Or.inr (Or.inr (Or.inl ⟨fi, rfl, hd, hframe⟩))
    rw [if_neg hd] at hframe
    have hd2 : fi.IsDir = false := by simpa using hd
    by_cases hx : fi.Mode &&& executableMask = 0
    · rw [if_pos hx] at hframe
      exact Or.inr (Or.inr (Or.inr (Or.inl ⟨fi, rfl, hd2, hx, hframe⟩)))
    rw [if_neg hx] at hframe
    refine Or.inr (Or.inr (Or.inr (Or.inr ⟨fi, rfl, hd2, hx, ?_⟩)))
    cases h2 : env.newPty with
    | error err =>
      rw [h2] at hframe
      exact Or.inl ⟨err, rfl, hframe⟩
    | ok pty =>
      obtain ⟨tty, ftty⟩ := pty
      rw [h2] at hframe; simp only [] at hframe
      refine Or.inr ⟨tty, ftty, rfl, ?_⟩
      intro cmd hcmd
      subst hcmd
      cases h3 : env.newMachine vmmCtx fcCfg
          ⟨firecrackerBinary opts (env.getenv "FIRECRACKER_BIN"), fcCfg.SocketPath, tty, tty,
            tty, ctx⟩ with
      | error err =>
        rw [h3] at hframe
        exact Or.inl ⟨err, rfl, hframe⟩
      | ok m =>
        rw [h3] at hframe; simp only [] at hframe
        refine Or.inr ⟨m, rfl, ?_⟩
        cases h4 : env.start m vmmCtx with
        | some err =>
          rw [h4] at hframe
          exact Or.inl ⟨err, rfl, hframe⟩
        | none =>
          rw [h4] at hframe; simp only [] at hframe
          refine Or.inr ⟨rfl, ?_⟩
          intro calls hcalls
          have hc : calls =
              (match opts.validMetadata with
               | some md =>
                 [Call.stat (firecrackerBinary opts (env.getenv "FIRECRACKER_BIN"))] ++
                   [Call.newPty] ++
                   [Call.newMachine vmmCtx
                     ⟨firecrackerBinary opts (env.getenv "FIRECRACKER_BIN"), fcCfg.SocketPath,
                       tty, tty, tty, ctx⟩] ++ [Call.start vmmCtx] ++
                   [Call.setMetadata vmmCtx md]
               | none =>
                 [Call.stat (firecrackerBinary opts (env.getenv "FIRECRACKER_BIN"))] ++
                   [Call.newPty] ++
                   [Call.newMachine vmmCtx
                     ⟨firecrackerBinary opts (env.getenv "FIRECRACKER_BIN"), fcCfg.SocketPath,
                       tty, tty, tty, ctx⟩] ++ [Call.start vmmCtx]) ++ [Call.pid] := by
            rw [hcalls]; cases opts.validMetadata <;> rfl
          rw [← hc] at hframe
          cases h5 : env.pid m with
          | error err =>
            rw [h5] at hframe
            exact Or.inl ⟨err, rfl, hframe⟩
          | ok pid =>
            rw [h5] at hframe; simp only [] at hframe
            refine Or.inr ⟨pid, rfl, ?_⟩
            cases h6 : networkFacts env opts fcCfg with
            | panicked fault =>
              rw [h6] at hframe
              exact Or.inl ⟨fault, rfl, hframe⟩
            | returned facts =>
              obtain ⟨ip, vnic⟩ := facts
              rw [h6] at hframe
              exact Or.inr ⟨ip, vnic, rfl, hframe⟩

theorem persist_open_failed (env : Env) (cfg : drivers.TaskConfig)
    (vmmCancel : context.CancelFunc) (m : firecracker.Machine) (tty : console.Console)
    (ftty : String) (pid : Int) (ip vnic : String) (calls : List Call) (err : String)
    (h : env.openFile (logfile cfg) = some err) :
    initializeContainer.persist env cfg vmmCancel m tty ftty pid ip vnic calls =
      ⟨false, .returned (.error (.creatingInfoFile (logfile cfg) err)),
        calls ++ [Call.openFile (logfile cfg)
          [.O_CREATE, .O_APPEND, .O_WRONLY] 0o644], env.files⟩ := by
  simp only [initializeContainer.persist, h]

theorem persist_opened (env : Env) (cfg : drivers.TaskConfig)
    (vmmCancel : context.CancelFunc) (m : firecracker.Machine) (tty : console.Console)
    (ftty : String) (pid : Int) (ip vnic : String) (calls : List Call)
    (h : env.openFile (logfile cfg) = none) :
    ∀ info, info = (⟨cfg.AllocID, ip, ftty, Itoa pid, vnic⟩ : Instance_info) →
    initializeContainer.persist env cfg vmmCancel m tty ftty pid ip vnic calls =
      ⟨true, .returned (.ok ⟨m, ftty, tty, info, vmmCancel⟩),
        calls ++ [Call.openFile (logfile cfg) [.O_CREATE, .O_APPEND, .O_WRONLY] 0o644] ++
          [Call.write (logfile cfg) (env.marshalIndent info)] ++ [Call.close (logfile cfg)],
        (env.files.create (logfile cfg)).append (logfile cfg)
          ((env.write (logfile cfg) (env.marshalIndent info)).written
            (env.marshalIndent info))⟩ := by
  intro info hi
  subst hi
  simp only [initializeContainer.persist, h]

/-- The run of `initializeContainer` once `getFirecrackerConfig` has
succeeded: the frame of the body, then the deferred rollback. -/
theorem run_of_config (env : Env) (ctx : context.Context) (cfg : drivers.TaskConfig)
    (tc : TaskConfig) (md : Option String) (fc : firecracker.Config)
    (hcfg : env.getFirecrackerConfig (taskConfig2FirecrackerOpts tc cfg).1 cfg.AllocID =
      (md, .ok fc)) :
    ∀ frame, frame = initializeContainer.body env ctx cfg
        { (taskConfig2FirecrackerOpts tc cfg).1 with validMetadata := md } fc
        (context.WithCancel ctx).1 (context.WithCancel ctx).2 →
    initializeContainer env ctx cfg tc =
      ⟨frame.ret,
        if frame.ok = true then frame.calls
        else frame.calls ++ [Call.cancel (context.WithCancel ctx).2],
        frame.files⟩ := by
  intro frame hframe
  subst hframe
  unfold initializeContainer
  simp only [hcfg]
  split <;> simp_all [context.WithCancel]

theorem networkFacts_of_configured (env : Env) (opts : options) (fc : firecracker.Config)
    (h : opts.FcNetworkName ≠ "" → firstInterfaceConfigured fc = true) :
    ∃ facts, networkFacts env opts fc = .returned facts := by
  unfold networkFacts
  by_cases hn : 0 < len opts.FcNetworkName
  · have hc := h ((len_pos_iff _).mp hn)
    unfold firstInterfaceConfigured at hc
    simp only [gt_iff_lt, hn, if_true]
    split at hc
    · rename_i hni
      rw [hni]
      exact ⟨_, rfl⟩
    · cases hc
  · simp only [gt_iff_lt, hn, if_false]
    exact ⟨_, rfl⟩

/-- The frame of the body against the first failing step. -/
theorem body_outcome (env : Env) (ctx : context.Context) (cfg : drivers.TaskConfig)
    (opts : options) (fc : firecracker.Config) (vmmCancel : context.CancelFunc) :
    ∀ frame, frame = initializeContainer.body env ctx cfg opts fc (context.WithCancel ctx).1
      vmmCancel →
    (∀ f, Call.cancel f ∉ frame.calls) ∧
    (frame.ok = true ↔ ∃ v, frame.ret = .returned (.ok v)) ∧
    (∀ v, frame.ret = .returned (.ok v) → v.Cancel = vmmCancel) ∧
    (∀ s, firstFailure env ctx cfg opts fc = some s → s ≠ .sideFile →
      ∃ e, frame.ret = .returned (.error e) ∧ e.step = some s) ∧
    ((∃ facts, networkFacts env opts fc = .returned facts) →
      (firstFailure env ctx cfg opts fc = some .sideFile →
        ∃ e, frame.ret = .returned (.error e) ∧ e.step = some .sideFile) ∧
      (firstFailure env ctx cfg opts fc = none → ∃ v, frame.ret = .returned (.ok v))) := by
  intro frame hframe
  have hc := body_cases env ctx cfg opts fc (context.WithCancel ctx).1 vmmCancel _ rfl frame hframe
  rcases hc with ⟨err, h1, hn, hf⟩ | ⟨err, h1, hn, hf⟩ | ⟨fi, h1, hd, hf⟩ | ⟨fi, h1, hd, hx, hf⟩ |
    ⟨fi, h1, hd, hx, hrest⟩
  · subst hf; simp [firstFailure, h1, Error.step]
  · subst hf; simp [firstFailure, h1, Error.step]
  · subst hf; simp [firstFailure, h1, hd, Error.step]
  · subst hf; simp [firstFailure, h1, hd, hx, Error.step]
  · rcases hrest with ⟨err, h2, hf⟩ | ⟨tty, ftty, h2, hrest⟩
    · subst hf; simp [firstFailure, h1, hd, hx, h2, Error.step]
    · rcases hrest _ rfl with ⟨err, h3, hf⟩ | ⟨m, h3, hrest⟩
      · subst hf; simp [firstFailure, h1, hd, hx, h2, h3, Error.step]
      · rcases hrest with ⟨err, h4, hf⟩ | ⟨h4, hrest⟩
        · subst hf; simp [firstFailure, h1, hd, hx, h2, h3, h4, Error.step]
        · rcases hrest _ rfl with ⟨err, h5, hf⟩ | ⟨pid, h5, hrest⟩
          · subst hf
            cases hmd : opts.validMetadata <;>
              simp [firstFailure, h1, hd, hx, h2, h3, h4, h5, Error.step]
          · rcases hrest with ⟨fault, h6, hf⟩ | ⟨ip, vnic, h6, hf⟩
            · subst hf
              cases hmd : opts.validMetadata <;>
                cases h7 : env.openFile (logfile cfg) <;>
                simp [firstFailure, h1, hd, hx, h2, h3, h4, h5, h6, h7, Error.step]
            · cases h7 : env.openFile (logfile cfg) with
              | some err =>
                rw [persist_open_failed _ _ _ _ _ _ _ _ _ _ err h7] at hf
                subst hf
                cases hmd : opts.validMetadata <;>
                  simp [firstFailure, h1, hd, hx, h2, h3, h4, h5, h6, h7, Error.step]
              | none =>
                rw [persist_opened _ _ _ _ _ _ _ _ _ _ h7 _ rfl] at hf
                subst hf
                cases hmd : opts.validMetadata <;>
                  simp [firstFailure, h1, hd, hx, h2, h3, h4, h5, h6, h7, Error.step]

/-- The calls of the body: what is stat-ed and launched, and when the console
is allocated. -/
theorem body_calls (env : Env) (ctx : context.Context) (cfg : drivers.TaskConfig)
    (opts : options) (fc : firecracker.Config) (vmmCtx : context.Context)
    (vmmCancel : context.CancelFunc) :
    ∀ bin, bin = firecrackerBinary opts (env.getenv "FIRECRACKER_BIN") →
    ∀ frame, frame = initializeContainer.body env ctx cfg opts fc vmmCtx vmmCancel →
    frame.calls.head? = some (Call.stat bin) ∧
    (∀ name, Call.stat name ∈ frame.calls → name = bin) ∧
    (∀ c cmd, Call.newMachine c cmd ∈ frame.calls → cmd.Bin = bin) ∧
    (Call.newPty ∈ frame.calls ↔
      ∃ fi, env.stat bin = .ok fi ∧ fi.IsDir = false ∧ fi.Mode &&& executableMask ≠ 0) ∧
    ((∃ v, frame.ret = .returned (.ok v)) → ∃ c cmd, Call.newMachine c cmd ∈ frame.calls) := by
  intro bin hbin frame hframe
  have hc := body_cases env ctx cfg opts fc vmmCtx vmmCancel bin hbin frame hframe
  rcases hc with ⟨err, h1, hn, hf⟩ | ⟨err, h1, hn, hf⟩ | ⟨fi, h1, hd, hf⟩ | ⟨fi, h1, hd, hx, hf⟩ |
    ⟨fi, h1, hd, hx, hrest⟩
  · subst hf; simp [h1]
  · subst hf; simp [h1]
  · subst hf; simp [h1, hd]
  · subst hf; simp [h1, hd, hx]
  · rcases hrest with ⟨err, h2, hf⟩ | ⟨tty, ftty, h2, hrest⟩
    · subst hf; simp [h1, hd, hx]
    · rcases hrest _ rfl with ⟨err, h3, hf⟩ | ⟨m, h3, hrest⟩
      · subst hf; simp [h1, hd, hx]
      · rcases hrest with ⟨err, h4, hf⟩ | ⟨h4, hrest⟩
        · subst hf; simp [h1, hd, hx]
        · rcases hrest _ rfl with ⟨err, h5, hf⟩ | ⟨pid, h5, hrest⟩
          · subst hf
            cases hmd : opts.validMetadata <;> simp [h1, hd, hx]
          · rcases hrest with ⟨fault, h6, hf⟩ | ⟨ip, vnic, h6, hf⟩
            · subst hf
              cases hmd : opts.validMetadata <;> simp [h1, hd, hx]
            · cases h7 : env.openFile (logfile cfg) with
              | some err =>
                rw [persist_open_failed _ _ _ _ _ _ _ _ _ _ err h7] at hf
                subst hf
                cases hmd : opts.validMetadata <;> simp [h1, hd, hx]
              | none =>
                rw [persist_opened _ _ _ _ _ _ _ _ _ _ h7 _ rfl] at hf
                subst hf
                cases hmd : opts.validMetadata <;> simp [h1, hd, hx]

/-! ## Rollback and commit -/

/-- C1: once the instance-scoped context exists, a failure of binary
validation, console allocation, machine construction, machine start or PID
retrieval makes `initializeContainer` return the error of that step with the
cancel function invoked; so does a failure to open the side file, and when
every step succeeds the cancel function is not invoked and is the one in the
returned `vminfo` - these two for a config on which the network facts can be
read (a first interface with static and CNI configuration whenever a network
name is set); and in every run that does not return a `vminfo` the cancel
function has been invoked. -/
theorem rollback_unless_committed (env : Env) (ctx : context.Context)
    (cfg : drivers.TaskConfig) (tc : TaskConfig) (md : Option String) (fc : firecracker.Config)
    (hcfg : env.getFirecrackerConfig (taskConfig2FirecrackerOpts tc cfg).1 cfg.AllocID =
      (md, .ok fc)) :
    (∀ s, firstFailure env ctx cfg (taskConfig2FirecrackerOpts tc cfg).1 fc = some s →
      (s = .sideFile → tc.Network ≠ "" → firstInterfaceConfigured fc = true) →
      (∃ e, (initializeContainer env ctx cfg tc).ret = .returned (.error e) ∧ e.step = some s) ∧
      Call.cancel (context.WithCancel ctx).2 ∈ (initializeContainer env ctx cfg tc).calls) ∧
    (firstFailure env ctx cfg (taskConfig2FirecrackerOpts tc cfg).1 fc = none →
      (tc.Network ≠ "" → firstInterfaceConfigured fc = true) →
      ∃ v, (initializeContainer env ctx cfg tc).ret = .returned (.ok v) ∧
        v.Cancel = (context.WithCancel ctx).2 ∧
        ∀ f, Call.cancel f ∉ (initializeContainer env ctx cfg tc).calls) ∧
    ((∀ v, (initializeContainer env ctx cfg tc).ret ≠ .returned (.ok v)) →
      Call.cancel (context.WithCancel ctx).2 ∈ (initializeContainer env ctx cfg tc).calls) := by
  have hrun := run_of_config env ctx cfg tc md fc hcfg _ rfl
  obtain ⟨hnc, hok, hcancel, hfail, hnet⟩ :=
    body_outcome env ctx cfg { (taskConfig2FirecrackerOpts tc cfg).1 with validMetadata := md }
      fc (context.WithCancel ctx).2 _ rfl
  have hff : firstFailure env ctx cfg
      { (taskConfig2FirecrackerOpts tc cfg).1 with validMetadata := md } fc =
      firstFailure env ctx cfg (taskConfig2FirecrackerOpts tc cfg).1 fc := rfl
  rw [hff] at hfail hnet
  have hfacts : (tc.Network ≠ "" → firstInterfaceConfigured fc = true) →
      ∃ facts, networkFacts env
        { (taskConfig2FirecrackerOpts tc cfg).1 with validMetadata := md } fc =
          .returned facts := by
    intro h
    apply networkFacts_of_configured
    intro hn
    apply h
    intro hnet
    apply hn
    simp only [taskConfig2FirecrackerOpts_fields, hnet]
    rfl
  have hnotok : ∀ e, (initializeContainer.body env ctx cfg
      { (taskConfig2FirecrackerOpts tc cfg).1 with validMetadata := md } fc
      (context.WithCancel ctx).1 (context.WithCancel ctx).2).ret = .returned (.error e) →
      Call.cancel (context.WithCancel ctx).2 ∈ (initializeContainer env ctx cfg tc).calls := by
    intro e he
    rw [hrun]
    have : ¬ (initializeContainer.body env ctx cfg
      { (taskConfig2FirecrackerOpts tc cfg).1 with validMetadata := md } fc
      (context.WithCancel ctx).1 (context.WithCancel ctx).2).ok = true := by
      intro h
      obtain ⟨v, hv⟩ := hok.mp h
      rw [he] at hv
      cases hv
    simp [this]
  refine ⟨?_, ?_, ?_⟩
  · intro s hs hside
    by_cases hsf : s = .sideFile
    · subst hsf
      obtain ⟨e, he, hstep⟩ := (hnet (hfacts (hside rfl))).1 hs
      exact ⟨⟨e, by rw [hrun]; exact he, hstep⟩, hnotok e he⟩
    · obtain ⟨e, he, hstep⟩ := hfail s hs hsf
      exact ⟨⟨e, by rw [hrun]; exact he, hstep⟩, hnotok e he⟩
  · intro hs hside
    obtain ⟨v, hv⟩ := (hnet (hfacts hside)).2 hs
    refine ⟨v, by rw [hrun]; exact hv, hcancel v hv, ?_⟩
    intro f
    rw [hrun]
    have : (initializeContainer.body env ctx cfg
      { (taskConfig2FirecrackerOpts tc cfg).1 with validMetadata := md } fc
      (context.WithCancel ctx).1 (context.WithCancel ctx).2).ok = true := hok.mpr ⟨v, hv⟩
    simp only [this, if_true]
    exact hnc f
  · intro hno
    rw [hrun]
    have : ¬ (initializeContainer.body env ctx cfg
      { (taskConfig2FirecrackerOpts tc cfg).1 with validMetadata := md } fc
      (context.WithCancel ctx).1 (context.WithCancel ctx).2).ok = true := by
      intro h
      obtain ⟨v, hv⟩ := hok.mp h
      apply hno v
      rw [hrun]
      exact hv
    simp [this]

/-- C1, on two runs: with the process id unavailable after a successful start
the run returns the error of the PID step and the cancel function has been
invoked; with every step succeeding the run returns a `vminfo` that carries
the cancel function, which has not been invoked. -/
theorem rollback_unless_committed_witness :
    firstFailure envNoPid .caller cfg0 (taskConfig2FirecrackerOpts tc0 cfg0).1 fcCfg0 =
      some .pid ∧
    ((∃ e, (initializeContainer envNoPid .caller cfg0 tc0).ret = .returned (.error e) ∧
        e.step = some .pid) ∧
      Call.cancel (context.WithCancel .caller).2 ∈
        (initializeContainer envNoPid .caller cfg0 tc0).calls) ∧
    firstFailure env0 .caller cfg0 (taskConfig2FirecrackerOpts tc0 cfg0).1 fcCfg0 = none ∧
    (∃ v, (initializeContainer env0 .caller cfg0 tc0).ret = .returned (.ok v) ∧
      v.Cancel = (context.WithCancel .caller).2 ∧
      ∀ f, Call.cancel f ∉ (initializeContainer env0 .caller cfg0 tc0).calls) :=
  ⟨by decide,
   (rollback_unless_committed envNoPid .caller cfg0 tc0 none fcCfg0 rfl).1 .pid (by decide)
     (fun h => by cases h),
   by decide,
   (rollback_unless_committed env0 .caller cfg0 tc0 none fcCfg0 rfl).2.1 (by decide)
     (fun _ => by decide)⟩

/-! ## The hypervisor binary -/

/-- C2: for every result of stat on the resolved binary, `initializeContainer`
fails with the "does not exist" error when the path does not exist, with the
"failed to stat" error on any other stat failure, and with a not-executable
error when the path is a directory or a file whose mode has none of the bits
`0111`; it goes on to allocate the console exactly when stat succeeds, the
path is not a directory and `mode & 0111` is not zero. -/
theorem binary_validation (env : Env) (ctx : context.Context) (cfg : drivers.TaskConfig)
    (tc : TaskConfig) (md : Option String) (fc : firecracker.Config)
    (hcfg : env.getFirecrackerConfig (taskConfig2FirecrackerOpts tc cfg).1 cfg.AllocID =
      (md, .ok fc)) :
    (∀ err, env.stat (binaryOf env tc cfg) = .error err → err.isNotExist = true →
      (initializeContainer env ctx cfg tc).ret =
        .returned (.error (.doesNotExist (binaryOf env tc cfg) err.msg)) ∧
      (Error.doesNotExist (binaryOf env tc cfg) err.msg).binaryError =
        some .BinaryNotFoundError) ∧
    (∀ err, env.stat (binaryOf env tc cfg) = .error err → err.isNotExist = false →
      (initializeContainer env ctx cfg tc).ret =
        .returned (.error (.failedToStat (binaryOf env tc cfg) err.msg)) ∧
      (Error.failedToStat (binaryOf env tc cfg) err.msg).binaryError =
        some .BinaryStatError) ∧
    (∀ fi, env.stat (binaryOf env tc cfg) = .ok fi → fi.IsDir = true →
      (initializeContainer env ctx cfg tc).ret =
        .returned (.error (.isDirectory (binaryOf env tc cfg))) ∧
      (Error.isDirectory (binaryOf env tc cfg)).binaryError =
        some .BinaryNotExecutableError) ∧
    (∀ fi, env.stat (binaryOf env tc cfg) = .ok fi → fi.IsDir = false →
      fi.Mode &&& 0o111 = 0 →
      (initializeContainer env ctx cfg tc).ret =
        .returned (.error (.notExecutable (binaryOf env tc cfg))) ∧
      (Error.notExecutable (binaryOf env tc cfg)).binaryError =
        some .BinaryNotExecutableError) ∧
    (Call.newPty ∈ (initializeContainer env ctx cfg tc).calls ↔
      ∃ fi, env.stat (binaryOf env tc cfg) = .ok fi ∧ fi.IsDir = false ∧
        fi.Mode &&& 0o111 ≠ 0) := by
  have hrun := run_of_config env ctx cfg tc md fc hcfg _ rfl
  have hc := body_cases env ctx cfg
    { (taskConfig2FirecrackerOpts tc cfg).1 with validMetadata := md } fc
    (context.WithCancel ctx).1 (context.WithCancel ctx).2 (binaryOf env tc cfg) rfl _ rfl
  have hcalls := (body_calls env ctx cfg
    { (taskConfig2FirecrackerOpts tc cfg).1 with validMetadata := md } fc
    (context.WithCancel ctx).1 (context.WithCancel ctx).2 (binaryOf env tc cfg) rfl _ rfl).2.2.2.1
  have hmask : executableMask = 0o111 := rfl
  rw [hmask] at hc hcalls
  refine ⟨?_, ?_, ?_, ?_, ?_⟩
  · intro err hs hn
    refine ⟨?_, rfl⟩
    rw [hrun]
    rcases hc with ⟨err2, h1, _, hf⟩ | ⟨err2, h1, hn2, _⟩ | ⟨fi, h1, _⟩ | ⟨fi, h1, _⟩ | ⟨fi, h1, _⟩
    · rw [hs] at h1; cases h1; rw [hf]
    · rw [hs] at h1; cases h1; rw [hn] at hn2; cases hn2
    all_goals (rw [hs] at h1; cases h1)
  · intro err hs hn
    refine ⟨?_, rfl⟩
    rw [hrun]
    rcases hc with ⟨err2, h1, hn2, _⟩ | ⟨err2, h1, _, hf⟩ | ⟨fi, h1, _⟩ | ⟨fi, h1, _⟩ | ⟨fi, h1, _⟩
    · rw [hs] at h1; cases h1; rw [hn] at hn2; cases hn2
    · rw [hs] at h1; cases h1; rw [hf]
    all_goals (rw [hs] at h1; cases h1)
  · intro fi hs hd
    refine ⟨?_, rfl⟩
    rw [hrun]
    rcases hc with ⟨err2, h1, _⟩ | ⟨err2, h1, _⟩ | ⟨fi2, h1, _, hf⟩ | ⟨fi2, h1, hd2, _⟩ |
      ⟨fi2, h1, hd2, _⟩
    · rw [hs] at h1; cases h1
    · rw [hs] at h1; cases h1
    · rw [hf]
    · rw [hs] at h1; cases h1; rw [hd] at hd2; cases hd2
    · rw [hs] at h1; cases h1; rw [hd] at hd2; cases hd2
  · intro fi hs hd hx
    refine ⟨?_, rfl⟩
    rw [hrun]
    rcases hc with ⟨err2, h1, _⟩ | ⟨err2, h1, _⟩ | ⟨fi2, h1, hd2, _⟩ | ⟨fi2, h1, _, _, hf⟩ |
      ⟨fi2, h1, _, hx2, _⟩
    · rw [hs] at h1; cases h1
    · rw [hs] at h1; cases h1
    · rw [hs] at h1; cases h1; rw [hd] at hd2; cases hd2
    · rw [hf]
    · rw [hs] at h1; cases h1; exact absurd hx hx2
  · rw [← hcalls, hrun]
    split <;> simp

/-- C2, on a hypervisor binary that is a regular file of mode `0644`: the run
fails with the not-executable error and never allocates a console. -/
theorem binary_validation_witness :
    (initializeContainer envNoExec .caller cfg0 tc0).ret =
      .returned (.error (.notExecutable "/usr/bin/firecracker")) ∧
    Call.newPty ∉ (initializeContainer envNoExec .caller cfg0 tc0).calls :=
  ⟨((binary_validation envNoExec .caller cfg0 tc0 none fcCfg0 rfl).2.2.2.1 ⟨false, 0o644⟩ rfl rfl
      (by decide)).1,
   fun h => by
    obtain ⟨fi, hs, _, hx⟩ :=
      (binary_validation envNoExec .caller cfg0 tc0 none fcCfg0 rfl).2.2.2.2.mp h
    cases hs
    exact hx (by decide)⟩

/-- A call of `initializeContainer` either stops at `getFirecrackerConfig`,
before any other call, or gets a config. -/
theorem run_config_cases (env : Env) (ctx : context.Context) (cfg : drivers.TaskConfig)
    (tc : TaskConfig) :
    (∃ err, initializeContainer env ctx cfg tc =
      ⟨.returned (.error (.config err)), [], env.files⟩) ∨
    (∃ md fc, env.getFirecrackerConfig (taskConfig2FirecrackerOpts tc cfg).1 cfg.AllocID =
      (md, .ok fc)) := by
  cases h : env.getFirecrackerConfig (taskConfig2FirecrackerOpts tc cfg).1 cfg.AllocID with
  | mk md r =>
    cases r with
    | error err =>
      left
      refine ⟨err, ?_⟩
      unfold initializeContainer
      simp only [h]
    | ok fc => exact Or.inr ⟨md, fc, rfl⟩

/-- The body reads the environment variables only to resolve the binary. -/
theorem body_getenv (env : Env) (getenv : String → String) (ctx : context.Context)
    (cfg : drivers.TaskConfig) (opts : options) (fc : firecracker.Config)
    (vmmCtx : context.Context) (vmmCancel : context.CancelFunc)
    (h : firecrackerBinary opts (getenv "FIRECRACKER_BIN") =
      firecrackerBinary opts (env.getenv "FIRECRACKER_BIN")) :
    initializeContainer.body { env with getenv := getenv } ctx cfg opts fc vmmCtx vmmCancel =
      initializeContainer.body env ctx cfg opts fc vmmCtx vmmCancel := by
  unfold initializeContainer.body
  simp only [h]
  rfl

/-- C8: the binary that `initializeContainer` stats and launches is the
explicit option of the task when that is non-empty, otherwise the value of
`FIRECRACKER_BIN` when that is non-empty, otherwise `/usr/bin/firecracker`;
with a non-empty explicit option the run is the same whatever the environment
variables hold. -/
theorem binary_resolution (env : Env) (ctx : context.Context) (cfg : drivers.TaskConfig)
    (tc : TaskConfig) :
    (binaryOf env tc cfg =
      if tc.Firecracker ≠ "" then tc.Firecracker
      else if env.getenv "FIRECRACKER_BIN" ≠ "" then env.getenv "FIRECRACKER_BIN"
      else "/usr/bin/firecracker") ∧
    (∀ md fc, env.getFirecrackerConfig (taskConfig2FirecrackerOpts tc cfg).1 cfg.AllocID =
        (md, .ok fc) →
      (initializeContainer env ctx cfg tc).calls.head? = some (Call.stat (binaryOf env tc cfg))) ∧
    (∀ name, Call.stat name ∈ (initializeContainer env ctx cfg tc).calls →
      name = binaryOf env tc cfg) ∧
    (∀ c cmd, Call.newMachine c cmd ∈ (initializeContainer env ctx cfg tc).calls →
      cmd.Bin = binaryOf env tc cfg) ∧
    ((∃ v, (initializeContainer env ctx cfg tc).ret = .returned (.ok v)) →
      ∃ c cmd, Call.newMachine c cmd ∈ (initializeContainer env ctx cfg tc).calls) ∧
    (tc.Firecracker ≠ "" → ∀ getenv,
      initializeContainer { env with getenv := getenv } ctx cfg tc =
        initializeContainer env ctx cfg tc) := by
  have hb := len_pos_iff tc.Firecracker
  have he := len_pos_iff (env.getenv "FIRECRACKER_BIN")
  have hbin : ∀ (o : options) (e : String), o.FcBinary = tc.Firecracker → tc.Firecracker ≠ "" →
      firecrackerBinary o e = tc.Firecracker := by
    intro o e ho hne
    simp only [firecrackerBinary, ho, gt_iff_lt, hb.mpr hne, if_true]
  refine ⟨?_, ?_, ?_, ?_, ?_, ?_⟩
  · simp only [binaryOf, firecrackerBinary, taskConfig2FirecrackerOpts_fields, gt_iff_lt, hb, he]
  · intro md fc hcfg
    rw [run_of_config env ctx cfg tc md fc hcfg _ rfl]
    have h := (body_calls env ctx cfg
      { (taskConfig2FirecrackerOpts tc cfg).1 with validMetadata := md } fc
      (context.WithCancel ctx).1 (context.WithCancel ctx).2 (binaryOf env tc cfg) rfl _ rfl).1
    revert h
    generalize (initializeContainer.body env ctx cfg
      { (taskConfig2FirecrackerOpts tc cfg).1 with validMetadata := md } fc
      (context.WithCancel ctx).1 (context.WithCancel ctx).2) = frame
    intro h
    split
    · exact h
    · cases hc : frame.calls with
      | nil => rw [hc] at h; cases h
      | cons a as => rw [hc] at h; simpa using h
  · intro name hmem
    rcases run_config_cases env ctx cfg tc with ⟨err, hr⟩ | ⟨md, fc, hcfg⟩
    · rw [hr] at hmem; cases hmem
    · rw [run_of_config env ctx cfg tc md fc hcfg _ rfl] at hmem
      have h := (body_calls env ctx cfg
        { (taskConfig2FirecrackerOpts tc cfg).1 with validMetadata := md } fc
        (context.WithCancel ctx).1 (context.WithCancel ctx).2 (binaryOf env tc cfg) rfl _
        rfl).2.1 name
      apply h
      revert hmem
      simp only []
      split <;> simp
  · intro c cmd hmem
    rcases run_config_cases env ctx cfg tc with ⟨err, hr⟩ | ⟨md, fc, hcfg⟩
    · rw [hr] at hmem; cases hmem
    · rw [run_of_config env ctx cfg tc md fc hcfg _ rfl] at hmem
      have h := (body_calls env ctx cfg
        { (taskConfig2FirecrackerOpts tc cfg).1 with validMetadata := md } fc
        (context.WithCancel ctx).1 (context.WithCancel ctx).2 (binaryOf env tc cfg) rfl _
        rfl).2.2.1 c cmd
      apply h
      revert hmem
      simp only []
      split <;> simp
  · rintro ⟨v, hv⟩
    rcases run_config_cases env ctx cfg tc with ⟨err, hr⟩ | ⟨md, fc, hcfg⟩
    · rw [hr] at hv; cases hv
    · rw [run_of_config env ctx cfg tc md fc hcfg _ rfl] at hv ⊢
      obtain ⟨c, cmd, h⟩ := (body_calls env ctx cfg
        { (taskConfig2FirecrackerOpts tc cfg).1 with validMetadata := md } fc
        (context.WithCancel ctx).1 (context.WithCancel ctx).2 (binaryOf env tc cfg) rfl _
        rfl).2.2.2.2 ⟨v, hv⟩
      refine ⟨c, cmd, ?_⟩
      simp only []
      split
      · exact h
      · exact List.mem_append_left _ h
  · intro hne getenv
    have hfc : (taskConfig2FirecrackerOpts tc cfg).1.FcBinary = tc.Firecracker := by
      simp only [taskConfig2FirecrackerOpts_fields]
    cases h : env.getFirecrackerConfig (taskConfig2FirecrackerOpts tc cfg).1 cfg.AllocID with
    | mk md r =>
      cases r with
      | error err =>
        unfold initializeContainer
        simp only [h]
      | ok fc =>
        have hcfg2 : ({ env with getenv := getenv } : Env).getFirecrackerConfig
            (taskConfig2FirecrackerOpts tc cfg).1 cfg.AllocID = (md, .ok fc) := h
        rw [run_of_config env ctx cfg tc md fc h _ rfl,
          run_of_config { env with getenv := getenv } ctx cfg tc md fc hcfg2 _ rfl,
          body_getenv]
        exact (hbin _ _ hfc hne).trans (hbin _ _ hfc hne).symm

/-- C8, on two runs without an explicit binary option: with `FIRECRACKER_BIN`
set the run stats that path first, with it unset the default path. -/
theorem binary_resolution_witness :
    (initializeContainer envBin .caller cfg0 tc0).calls.head? =
      some (Call.stat "/opt/fc/firecracker") ∧
    (initializeContainer env0 .caller cfg0 tc0).calls.head? =
      some (Call.stat "/usr/bin/firecracker") ∧
    initializeContainer { env0 with getenv := fun _ => "/opt/fc/firecracker" } .caller cfg0
        { tc0 with Firecracker := "/srv/firecracker" } =
      initializeContainer env0 .caller cfg0 { tc0 with Firecracker := "/srv/firecracker" } :=
  ⟨(binary_resolution envBin .caller cfg0 tc0).2.1 none fcCfg0 rfl,
   (binary_resolution env0 .caller cfg0 tc0).2.1 none fcCfg0 rfl,
   (binary_resolution env0 .caller cfg0 { tc0 with Firecracker := "/srv/firecracker" }).2.2.2.2.2
     (by decide) _⟩

/-! ## The committed run: side file and network facts -/

/-- A run that returns a `vminfo` went through every step: the values its
steps produced, the record, the calls and the files it leaves. -/
theorem run_ok (env : Env) (ctx : context.Context) (cfg : drivers.TaskConfig)
    (tc : TaskConfig) (v : vminfo)
    (h : (initializeContainer env ctx cfg tc).ret = .returned (.ok v)) :
    ∃ md fc tty ftty m pid ip vnic,
      env.getFirecrackerConfig (taskConfig2FirecrackerOpts tc cfg).1 cfg.AllocID =
        (md, .ok fc) ∧
      env.newPty = .ok (tty, ftty) ∧
      env.pid m = .ok pid ∧
      networkFacts env { (taskConfig2FirecrackerOpts tc cfg).1 with validMetadata := md } fc =
        .returned (ip, vnic) ∧
      env.openFile (logfile cfg) = none ∧
      v = ⟨m, ftty, tty, ⟨cfg.AllocID, ip, ftty, Itoa pid, vnic⟩, (context.WithCancel ctx).2⟩ ∧
      (initializeContainer env ctx cfg tc).files =
        (env.files.create (logfile cfg)).append (logfile cfg)
          ((env.write (logfile cfg) (env.marshalIndent v.Info)).written
            (env.marshalIndent v.Info)) ∧
      ∃ calls, (∀ c ∈ calls, c.isWrite = false) ∧
        (initializeContainer env ctx cfg tc).calls =
          calls ++ [Call.openFile (logfile cfg) [.O_CREATE, .O_APPEND, .O_WRONLY] 0o644] ++
            [Call.write (logfile cfg) (env.marshalIndent v.Info)] ++
            [Call.close (logfile cfg)] := by
  rcases run_config_cases env ctx cfg tc with ⟨err, hr⟩ | ⟨md, fc, hcfg⟩
  · rw [hr] at h; cases h
  · have hrun := run_of_config env ctx cfg tc md fc hcfg _ rfl
    rw [hrun] at h
    simp only [] at h
    obtain ⟨fi, tty, ftty, m, pid, ip, vnic, h1, hd, hx, h2, h3, h4, h5, h6, h7, hbody⟩ :=
      body_ok env ctx cfg _ fc _ _ v h
    rw [hbody, persist_opened _ _ _ _ _ _ _ _ _ _ h7 _ rfl] at hrun h
    simp only [Outcome.returned.injEq, Except.ok.injEq] at h
    subst h
    have hcalls := congrArg Run.calls hrun
    have hfiles := congrArg Run.files hrun
    simp only [if_true] at hcalls hfiles
    refine ⟨md, fc, tty, ftty, m, pid, ip, vnic, hcfg, h2, h5, h6, h7, rfl, hfiles, ?_⟩
    rw [hcalls]
    refine ⟨_, ?_, rfl⟩
    cases md <;> simp [Call.isWrite]

/-- C3, refuted as stated: a run that returns a `vminfo` can leave a side file
whose content is not the serialised record - when the file exists already
the record is appended to what it holds, and when the write fails the run
still succeeds. -/
theorem side_file_not_exactly_the_record :
    (∃ v, (initializeContainer envStale .caller cfg0 tc0).ret = .returned (.ok v) ∧
      (initializeContainer envStale .caller cfg0 tc0).files (logfile cfg0) =
        some ("stale" ++ envStale.marshalIndent v.Info) ∧
      (initializeContainer envStale .caller cfg0 tc0).files (logfile cfg0) ≠
        some (envStale.marshalIndent v.Info)) ∧
    (∃ v, (initializeContainer envWriteFails .caller cfg0 tc0).ret = .returned (.ok v) ∧
      (initializeContainer envWriteFails .caller cfg0 tc0).files (logfile cfg0) = some "" ∧
      (initializeContainer envWriteFails .caller cfg0 tc0).files (logfile cfg0) ≠
        some (envWriteFails.marshalIndent v.Info)) :=
  ⟨⟨_, rfl, by decide, by decide⟩, ⟨_, rfl, by decide, by decide⟩⟩

/-- C3, as amended: when `initializeContainer` returns a `vminfo` the side
file `/tmp/{task name}-{allocation id}` exists and holds what it held before
(nothing when it did not exist) followed by what the single write of the
indented JSON of the returned record put there - the whole JSON when that
write succeeds, so exactly the JSON when moreover the file did not exist;
that write is the only write of the run, no other file changes, and the
record carries the allocation id. -/
theorem side_file_appended (env : Env) (ctx : context.Context) (cfg : drivers.TaskConfig)
    (tc : TaskConfig) (v : vminfo)
    (h : (initializeContainer env ctx cfg tc).ret = .returned (.ok v)) :
    logfile cfg = "/tmp/" ++ cfg.Name ++ "-" ++ cfg.AllocID ∧
    (initializeContainer env ctx cfg tc).files (logfile cfg) =
      some ((env.files (logfile cfg)).getD "" ++
        (env.write (logfile cfg) (env.marshalIndent v.Info)).written
          (env.marshalIndent v.Info)) ∧
    (env.write (logfile cfg) (env.marshalIndent v.Info) = .done →
      (initializeContainer env ctx cfg tc).files (logfile cfg) =
        some ((env.files (logfile cfg)).getD "" ++ env.marshalIndent v.Info)) ∧
    (env.write (logfile cfg) (env.marshalIndent v.Info) = .done →
      env.files (logfile cfg) = none →
      (initializeContainer env ctx cfg tc).files (logfile cfg) =
        some (env.marshalIndent v.Info)) ∧
    (initializeContainer env ctx cfg tc).calls.filter Call.isWrite =
      [Call.write (logfile cfg) (env.marshalIndent v.Info)] ∧
    (∀ name, name ≠ logfile cfg →
      (initializeContainer env ctx cfg tc).files name = env.files name) ∧
    v.Info.AllocId = cfg.AllocID := by
  obtain ⟨md, fc, tty, ftty, m, pid, ip, vnic, hcfg, h2, h5, h6, h7, hv, hfiles, calls, hw,
    hcalls⟩ := run_ok env ctx cfg tc v h
  have hfile : (initializeContainer env ctx cfg tc).files (logfile cfg) =
      some ((env.files (logfile cfg)).getD "" ++
        (env.write (logfile cfg) (env.marshalIndent v.Info)).written
          (env.marshalIndent v.Info)) := by
    rw [hfiles]
    simp [os.Files.append, os.Files.create]
  refine ⟨rfl, hfile, ?_, ?_, ?_, ?_, ?_⟩
  · intro hdone
    rw [hfile, hdone]
    rfl
  · intro hdone hnone
    rw [hfile, hdone, hnone]
    simp [os.WriteResult.written]
  · rw [hcalls]
    have hnil : calls.filter Call.isWrite = [] := by
      rw [List.filter_eq_nil_iff]
      intro c hc
      rw [hw c hc]
      simp
    simp [List.filter_append, hnil, Call.isWrite]
  · intro name hne
    rw [hfiles]
    simp [os.Files.append, os.Files.create, hne]
  · rw [hv]

/-- C3 as amended, on the run of `env0`: no file before, a successful write,
and the side file holds exactly the JSON of the returned record. -/
theorem side_file_appended_witness :
    ∃ v, (initializeContainer env0 .caller cfg0 tc0).ret = .returned (.ok v) ∧
      (initializeContainer env0 .caller cfg0 tc0).files "/tmp/web-a1" =
        some (env0.marshalIndent v.Info) ∧
      (initializeContainer env0 .caller cfg0 tc0).calls.filter Call.isWrite =
        [Call.write "/tmp/web-a1" (env0.marshalIndent v.Info)] :=
  ⟨_, rfl, (side_file_appended env0 .caller cfg0 tc0 _ rfl).2.2.2.1 rfl rfl,
    (side_file_appended env0 .caller cfg0 tc0 _ rfl).2.2.2.2.1⟩

/-- C5: in the record of a successful run, with no network name configured
the IP and the virtual NIC name are both "No network chosen"; with a network
name configured and a first interface that has static and CNI configuration,
the IP is the string form of its static address and the NIC name its CNI
interface name followed by "vm" - and on a successful run with a network
name the first interface is so configured. -/
theorem instance_network_facts (env : Env) (ctx : context.Context) (cfg : drivers.TaskConfig)
    (tc : TaskConfig) (v : vminfo)
    (h : (initializeContainer env ctx cfg tc).ret = .returned (.ok v)) :
    (tc.Network = "" →
      v.Info.Ip = "No network chosen" ∧ v.Info.Vnic = "No network chosen") ∧
    (tc.Network ≠ "" → ∀ md fc,
      env.getFirecrackerConfig (taskConfig2FirecrackerOpts tc cfg).1 cfg.AllocID =
        (md, .ok fc) →
      ∀ nic rest static ipc cni, fc.NetworkInterfaces = nic :: rest →
        nic.StaticConfiguration = some static → static.IPConfiguration = some ipc →
        nic.CNIConfiguration = some cni →
        v.Info.Ip = env.ipNetString ipc.IPAddr ∧ v.Info.Vnic = cni.IfName ++ "vm") ∧
    (tc.Network ≠ "" → ∀ md fc,
      env.getFirecrackerConfig (taskConfig2FirecrackerOpts tc cfg).1 cfg.AllocID =
        (md, .ok fc) →
      firstInterfaceConfigured fc = true) := by
  obtain ⟨md, fc, tty, ftty, m, pid, ip, vnic, hcfg, h2, h5, h6, h7, hv, hfiles, calls, hw,
    hcalls⟩ := run_ok env ctx cfg tc v h
  have hname : ({ (taskConfig2FirecrackerOpts tc cfg).1 with validMetadata := md } :
      options).FcNetworkName = tc.Network := (network_flags tc cfg).2
  have hlen := len_pos_iff tc.Network
  subst hv
  unfold networkFacts at h6
  rw [hname] at h6
  refine ⟨?_, ?_, ?_⟩
  · intro hn
    rw [if_neg (fun hp => hlen.mp hp hn)] at h6
    simp only [Outcome.returned.injEq, Prod.mk.injEq] at h6
    exact ⟨h6.1.symm, h6.2.symm⟩
  · intro hn md2 fc2 hcfg2 nic rest static ipc cni hni hs hi hc
    rw [hcfg] at hcfg2
    cases hcfg2
    rw [if_pos (hlen.mpr hn), hni] at h6
    simp only [hs, hi, hc, Outcome.returned.injEq, Prod.mk.injEq] at h6
    exact ⟨h6.1.symm, h6.2.symm⟩
  · intro hn md2 fc2 hcfg2
    rw [hcfg] at hcfg2
    cases hcfg2
    rw [if_pos (hlen.mpr hn)] at h6
    unfold firstInterfaceConfigured
    split at h6
    · cases h6
    · rename_i nic rest hni
      rw [hni]
      split at h6
      · cases h6
      · rename_i static hs
        split at h6
        · cases h6
        · rename_i ipc hi
          split at h6
          · cases h6
          · rename_i cni hc
            obtain ⟨s, c⟩ := nic
            simp only at hs hc
            subst hs hc
            obtain ⟨i⟩ := static
            simp only at hi
            subst hi
            rfl

/-- C5, on two runs of `env0`: without a network name both fields are the
sentinel, with the network name `default` they come from the interface
`veth0` of the config. -/
theorem instance_network_facts_witness :
    (∃ v, (initializeContainer env0 .caller cfg0 tc0).ret = .returned (.ok v) ∧
      v.Info.Ip = "No network chosen" ∧ v.Info.Vnic = "No network chosen") ∧
    (∃ v, (initializeContainer env0 .caller cfg0 { tc0 with Network := "default" }).ret =
        .returned (.ok v) ∧
      v.Info.Ip = "10.0.0.2/24" ∧ v.Info.Vnic = "veth0vm") :=
  ⟨⟨_, rfl, (instance_network_facts env0 .caller cfg0 tc0 _ rfl).1 rfl⟩,
   ⟨_, rfl, (instance_network_facts env0 .caller cfg0 { tc0 with Network := "default" } _
      rfl).2.1 (by decide) none fcCfg0 rfl _ _ _ _ _ rfl rfl rfl rfl⟩⟩

/-- C10, the failing case: when the open succeeds and the write fails,
`tickle` has issued the write of "exit" and returns without closing the
descriptor; it closes it only after a successful write, and after a failed
open it does nothing more. -/
theorem tickle_skips_close_on_write_failure :
    tickle none (some "resource temporarily unavailable") "/dev/pts/3" =
      [Call.openFile "/dev/pts/3" [.O_RDWR, .O_NONBLOCK] 0, Call.write "/dev/pts/3" "exit"] ∧
    (∀ pty err, Call.write pty "exit" ∈ tickle none (some err) pty ∧
      Call.close pty ∉ tickle none (some err) pty) ∧
    (∀ pty, tickle none none pty =
      [Call.openFile pty [.O_RDWR, .O_NONBLOCK] 0, Call.write pty "exit", Call.close pty]) ∧
    (∀ pty err w, tickle (some err) w pty = [Call.openFile pty [.O_RDWR, .O_NONBLOCK] 0]) := by
  refine ⟨rfl, ?_, fun _ => rfl, fun _ _ _ => rfl⟩
  intro pty err
  simp [tickle]

end firevm
